import Mathlib

/-!
Chat request sequencing of `frontend/src/pages/Chatbot.js`.

A shallow embedding of the chat screen's controller (`Chatbot.js`) and of the
request wrapper `chatWithBot` (`utils/api.js`), followed by theorems about
them.

Modelling conventions.

* A JavaScript string is a Lean `String`; `includes`, `trim` and
  `toLowerCase` are defined on its list of characters.
* `Date.now()` and `new Date()` are inputs of the handlers (`now`, `stamp`,
  milliseconds as natural numbers).
* `Math.random` only enters through the comparator handed to `Array.sort`;
  the sorted array is a rearrangement of the original one, so the shuffle is an
  input `shuffle : List String → List String` and the theorems assume that it
  returns a permutation of its argument.
* React state (`messages`, `inputMessage`, `isLoading`) and the two refs
  (`pendingRequestRef`, `requestIdRef`) are fields of one record; each handler
  is a function from the record before the event to the record after it. An
  updater passed to `setMessages` runs once.
* A handler closes over the `inputMessage` and `isLoading` of the render that
  created it, and reads the refs when it runs. `handleSendAt` and
  `handleSuggestedQuestionAt` take that render as the argument `view`;
  `handleSend` and `handleSuggestedQuestion` are the handlers of the current
  state, which is what runs when the component was rendered again since the
  last state change. In a session (`Event.apply`) the component is rendered
  again between two events.
* The promise created by the deferred callback of request `n` is identified
  with `n`: every callback owns a distinct `currentRequestId` and creates
  exactly one promise.
-/

namespace Chatbot

/-! ## Strings -/

/-- White space and line terminators of ECMAScript, the characters removed by
`String.prototype.trim`. -/
def isWhiteSpace (c : Char) : Bool :=
  let n := c.toNat
  n == 0x09 || n == 0x0A || n == 0x0B || n == 0x0C || n == 0x0D || n == 0x20 ||
  n == 0xA0 || n == 0x1680 || (0x2000 ≤ n && n ≤ 0x200A) || n == 0x2028 ||
  n == 0x2029 || n == 0x202F || n == 0x205F || n == 0x3000 || n == 0xFEFF

/-- The method `String.prototype.trim`: white space removed from both ends. -/
def trim (s : String) : String :=
  String.mk ((s.data.dropWhile isWhiteSpace).reverse.dropWhile isWhiteSpace).reverse

/-- Truthiness of a string: only the empty string is falsy. -/
def truthy (s : String) : Bool := !s.data.isEmpty

/-- Substring search on character lists. -/
def includesChars : List Char → List Char → Bool
  | [], sub => sub.isEmpty
  | c :: cs, sub => sub.isPrefixOf (c :: cs) || includesChars cs sub

/-- The method `String.prototype.includes`. -/
def includes (s sub : String) : Bool := includesChars s.data sub.data

/-- Lower-case form of one character, as far as ASCII is concerned: `A`..`Z`
become `a`..`z`, the dotted capital I (U+0130) becomes `i` followed by the
combining dot (U+0307), the Kelvin sign (U+212A) becomes `k`. Every other
character stands for its own lower-case form, which is not an ASCII
character. -/
def lowerChar (c : Char) : List Char :=
  if c.toNat == 0x130 then ['i', Char.ofNat 0x307]
  else if c.toNat == 0x212A then ['k']
  else [c.toLower]

/-- The method `String.prototype.toLowerCase`. Its result is only searched for
ASCII words, so characters outside ASCII whose lower-case form is outside
ASCII are kept as they are. -/
def toLowerCase (s : String) : String := String.mk (s.data.flatMap lowerChar)

/-! ## Suggested questions -/

/-- Candidates pushed when `brahmi` is found. -/
def brahmiQuestions : List String :=
  ["What is the history of Brahmi script?",
   "How is Brahmi script used today?",
   "What are the characteristics of Brahmi script?"]

/-- Candidates pushed when `ocr` is found. -/
def ocrQuestions : List String :=
  ["How does OCR work?",
   "What are the different types of OCR?",
   "How accurate is OCR technology?"]

/-- Candidates pushed when `tamil` is found. -/
def tamilQuestions : List String :=
  ["What is Tamil OCR?",
   "How is Tamil script recognized?",
   "What are the challenges in Tamil OCR?"]

/-- Candidates pushed when `script` is found. -/
def scriptQuestions : List String :=
  ["What are the different Indian scripts?",
   "How are scripts transcribed?",
   "What is script transliteration?"]

/-- Candidates pushed when no topic was found. -/
def genericQuestions : List String :=
  ["Can you tell me more about this?",
   "What are the key features?",
   "How does this relate to other topics?"]

/-- The test `lowerAnswer.includes(k) || lowerQuestion.includes(k)`. -/
def mentions (answer userQuestion keyword : String) : Bool :=
  includes (toLowerCase answer) keyword || includes (toLowerCase userQuestion) keyword

/-- The array `suggestions` of `generateSuggestedQuestions` after the four
topic tests, before the generic fallback. -/
def topicSuggestions (answer userQuestion : String) : List String :=
  (if mentions answer userQuestion "brahmi" then brahmiQuestions else []) ++
  (if mentions answer userQuestion "ocr" then ocrQuestions else []) ++
  (if mentions answer userQuestion "tamil" then tamilQuestions else []) ++
  (if mentions answer userQuestion "script" then scriptQuestions else [])

/-- The array `suggestions` of `generateSuggestedQuestions` right before it is
sorted. -/
def suggestions (answer userQuestion : String) : List String :=
  let found := topicSuggestions answer userQuestion
  if found.length == 0 then genericQuestions else found

/-- The array `suggestions` right before it is sorted, as a function of the
outcomes of the four topic tests. -/
def poolOf (b o t c : Bool) : List String :=
  let found := (if b then brahmiQuestions else []) ++ (if o then ocrQuestions else []) ++
    (if t then tamilQuestions else []) ++ (if c then scriptQuestions else [])
  if found.length == 0 then genericQuestions else found

/-- The function `generateSuggestedQuestions`: the pool, rearranged by the
random sort, cut to its first three entries. -/
def generateSuggestedQuestions (shuffle : List String → List String)
    (answer userQuestion : String) : List String :=
  (shuffle (suggestions answer userQuestion)).take 3

/-! ## Messages and the outbound history -/

/-- The field `sender` of a message. -/
inductive Sender
  | user
  | bot
deriving DecidableEq, Repr

/-- One entry of the state `messages`. A field the object literal leaves out
is `none` for `suggestedQuestions` and `false` for `isError`. -/
structure Message where
  id : Nat
  text : String
  sender : Sender
  timestamp : Nat
  suggestedQuestions : Option (List String)
  isError : Bool
deriving DecidableEq, Repr

/-- Text of the message set by the mount effect. -/
def welcomeText : String :=
  "Hello! I'm your AI assistant. I can help you with questions about Tamil OCR, Brahmi scripts, and related topics based on the knowledge base. How can I help you today?"

/-- The literal searched for by the history filter. -/
def welcomeSentinel : String := "Hello! I'm your AI assistant"

/-- Suggestions carried by the message set by the mount effect. -/
def welcomeSuggestions : List String :=
  ["What is Brahmi script?",
   "How does Tamil OCR work?",
   "What are the different types of scripts?"]

/-- The message set by the mount effect. -/
def welcomeMessage (now stamp : Nat) : Message :=
  { id := now, text := welcomeText, sender := Sender.bot, timestamp := stamp,
    suggestedQuestions := some welcomeSuggestions, isError := false }

/-- One entry of the array `conversationHistory`. -/
structure HistoryEntry where
  role : String
  text : String
  sender : Sender
deriving DecidableEq, Repr

/-- The predicate of the `filter` call that builds the history. -/
def keptInHistory (msg : Message) : Bool :=
  msg.sender != Sender.bot || !includes msg.text welcomeSentinel

/-- The function of the `map` call that builds the history. -/
def toEntry (msg : Message) : HistoryEntry :=
  { role := if msg.sender == Sender.user then "user" else "assistant",
    text := msg.text, sender := msg.sender }

/-- The array `conversationHistory` built from `allMessages` (in `handleSend`)
and from `updatedMessages` (in `handleSuggestedQuestion`). -/
def conversationHistory (allMessages : List Message) : List HistoryEntry :=
  (allMessages.filter keptInHistory).map toEntry

/-! ## Controller state and handlers -/

/-- The body `chatWithBot` posts. -/
structure ChatRequest where
  message : String
  conversation_history : List HistoryEntry
deriving DecidableEq, Repr

/-- State of the component: the React state variables and the two refs. -/
structure ChatState where
  messages : List Message
  inputMessage : String
  isLoading : Bool
  pendingRequestRef : Option Nat
  requestIdRef : Nat
deriving DecidableEq, Repr

/-- What the callback handed to `setTimeout` closes over. -/
structure RequestClosure where
  currentRequestId : Nat
  currentInput : String
  conversationHistory : List HistoryEntry
deriving DecidableEq, Repr

/-- State right after the first render: the `useState` and `useRef` defaults. -/
def initialState : ChatState :=
  { messages := [], inputMessage := "", isLoading := false,
    pendingRequestRef := none, requestIdRef := 0 }

/-- The mount effect: `setMessages` with the welcome message. -/
def mount (now stamp : Nat) (s : ChatState) : ChatState :=
  { s with messages := [welcomeMessage now stamp] }

/-- The user message built by both submit handlers. -/
def userMessage (text : String) (now stamp : Nat) : Message :=
  { id := now, text := text, sender := Sender.user, timestamp := stamp,
    suggestedQuestions := none, isError := false }

/-- The part shared by both submit handlers once the guards are passed:
`setIsLoading(true)`, the `setMessages` updater with its `++requestIdRef.current`
and the `setTimeout` call, and `setInputMessage('')`. -/
def acceptSubmission (text : String) (now stamp : Nat) (s : ChatState) :
    ChatState × Option RequestClosure :=
  let allMessages := s.messages ++ [userMessage text now stamp]
  let currentRequestId := s.requestIdRef + 1
  ({ s with messages := allMessages, inputMessage := "", isLoading := true,
            requestIdRef := currentRequestId },
   some { currentRequestId := currentRequestId, currentInput := text,
          conversationHistory := conversationHistory allMessages })

/-- The handler `handleSend`; the second component is the callback it hands
to `setTimeout`, if any. -/
def handleSend (now stamp : Nat) (s : ChatState) : ChatState × Option RequestClosure :=
  if !truthy (trim s.inputMessage) || s.isLoading then (s, none)
  else if s.pendingRequestRef.isSome then (s, none)
  else acceptSubmission s.inputMessage now stamp s

/-- The handler `handleSuggestedQuestion`; the second component is the callback
it hands to `setTimeout`, if any. -/
def handleSuggestedQuestion (question : String) (now stamp : Nat) (s : ChatState) :
    ChatState × Option RequestClosure :=
  if s.isLoading then (s, none)
  else
    let s1 := { s with inputMessage := question }
    if s1.pendingRequestRef.isSome then (s1, none)
    else acceptSubmission question now stamp s1

/-- The callback handed to `setTimeout`: when the request is still the latest
one, `chatWithBot` is called and its promise stored in `pendingRequestRef`. -/
def deferredIssue (c : RequestClosure) (s : ChatState) : ChatState × Option ChatRequest :=
  if c.currentRequestId != s.requestIdRef then (s, none)
  else ({ s with pendingRequestRef := some c.currentRequestId },
        some { message := c.currentInput, conversation_history := c.conversationHistory })

/-- The test `exists` of the `setMessages` updaters in the completion
handlers. -/
def alreadyExists (prevMsgs : List Message) (m : Message) : Bool :=
  prevMsgs.any fun msg =>
    msg.id == m.id ||
    (msg.sender == Sender.bot && msg.text == m.text &&
      decide (Int.natAbs ((msg.timestamp : Int) - (m.timestamp : Int)) < 1000))

/-- The `setMessages` updater of the completion handlers. -/
def appendUnlessExists (prevMsgs : List Message) (m : Message) : List Message :=
  if alreadyExists prevMsgs m then prevMsgs else prevMsgs ++ [m]

/-- Text of the synthesized failure reply. -/
def errorText : String := "Sorry, I encountered an error. Please try again later."

/-- Text of the failure notification. -/
def toastText : String := "Failed to get response from chatbot"

/-- Side effects of a completion handler. -/
inductive Effect
  | consoleError
  | toastError (text : String)
deriving DecidableEq, Repr

/-- How the promise returned by `chatWithBot` settles; `answer` is the field
`response.answer`, `none` when the reply has no such field. -/
inductive Outcome
  | fulfilled (answer : Option String)
  | rejected
deriving DecidableEq, Repr

/-- The test that opens both completion handlers. -/
def notCurrent (c : RequestClosure) (s : ChatState) : Bool :=
  s.pendingRequestRef != some c.currentRequestId || c.currentRequestId != s.requestIdRef

/-- The bot message built by the `then` handler. -/
def botMessage (shuffle : List String → List String) (answer question : String)
    (now stamp : Nat) : Message :=
  { id := now + 1, text := answer, sender := Sender.bot, timestamp := stamp,
    suggestedQuestions := some (generateSuggestedQuestions shuffle answer question),
    isError := false }

/-- The error message built by the `catch` handler. -/
def errorMessage (now stamp : Nat) : Message :=
  { id := now + 1, text := errorText, sender := Sender.bot, timestamp := stamp,
    suggestedQuestions := none, isError := true }

/-- The `then` handler. The flag is `true` when the handler throws: with no
`answer` field, `answer.toLowerCase()` raises after `pendingRequestRef` has
been cleared. -/
def thenHandler (shuffle : List String → List String) (now stamp : Nat)
    (c : RequestClosure) (answer : Option String) (s : ChatState) : ChatState × Bool :=
  if notCurrent c s then (s, false)
  else
    let s1 := { s with pendingRequestRef := none }
    match answer with
    | none => (s1, true)
    | some a =>
      ({ s1 with
          messages := appendUnlessExists s1.messages (botMessage shuffle a c.currentInput now stamp),
          isLoading := false }, false)

/-- The `catch` handler. -/
def catchHandler (now stamp : Nat) (c : RequestClosure) (s : ChatState) :
    ChatState × List Effect :=
  if notCurrent c s then (s, [])
  else
    ({ s with pendingRequestRef := none,
              messages := appendUnlessExists s.messages (errorMessage now stamp),
              isLoading := false },
     [Effect.consoleError, Effect.toastError toastText])

/-- The chain `requestPromise.then(...).catch(...)`: a fulfilled promise runs
the `then` handler, and the `catch` handler after it when that one throws; a
rejected promise runs the `catch` handler only. -/
def settle (shuffle : List String → List String) (now stamp : Nat)
    (c : RequestClosure) (outcome : Outcome) (s : ChatState) : ChatState × List Effect :=
  match outcome with
  | Outcome.fulfilled answer =>
    let r := thenHandler shuffle now stamp c answer s
    if r.2 then catchHandler now stamp c r.1 else (r.1, [])
  | Outcome.rejected => catchHandler now stamp c s

/-- The controller is idle: loading flag clear and no pending request. -/
def Idle (s : ChatState) : Prop := s.isLoading = false ∧ s.pendingRequestRef = none

instance (s : ChatState) : Decidable (Idle s) := by unfold Idle; infer_instance

/-- A submission attempt: the form is submitted with the current input buffer,
or a suggestion button is clicked. -/
inductive Submission
  | typed (now stamp : Nat)
  | suggestion (question : String) (now stamp : Nat)
deriving DecidableEq, Repr

/-- The handler a submission attempt runs. -/
def submit : Submission → ChatState → ChatState × Option RequestClosure
  | Submission.typed now stamp, s => handleSend now stamp s
  | Submission.suggestion question now stamp, s => handleSuggestedQuestion question now stamp s

/-- The handler `handleSend` created by the render that showed `view`, run on
the state `s`: `inputMessage` and `isLoading` are the constants captured at
that render, the ref `pendingRequestRef` is read when the handler runs, and
the setters and the updater passed to `setMessages` act on the state at that
time. With `view = s` this is `handleSend`. -/
def handleSendAt (view : ChatState) (now stamp : Nat) (s : ChatState) :
    ChatState × Option RequestClosure :=
  if !truthy (trim view.inputMessage) || view.isLoading then (s, none)
  else if s.pendingRequestRef.isSome then (s, none)
  else acceptSubmission view.inputMessage now stamp s

/-- The handler `handleSuggestedQuestion` created by the render that showed
`view`, run on the state `s`. With `view = s` this is
`handleSuggestedQuestion`. -/
def handleSuggestedQuestionAt (view : ChatState) (question : String) (now stamp : Nat)
    (s : ChatState) : ChatState × Option RequestClosure :=
  if view.isLoading then (s, none)
  else
    let s1 := { s with inputMessage := question }
    if s1.pendingRequestRef.isSome then (s1, none)
    else acceptSubmission question now stamp s1

/-- The handler a submission attempt runs when it was created by the render
that showed `view`. -/
def submitAt (view : ChatState) : Submission → ChatState → ChatState × Option RequestClosure
  | Submission.typed now stamp, s => handleSendAt view now stamp s
  | Submission.suggestion question now stamp, s =>
    handleSuggestedQuestionAt view question now stamp s

/-- A submission attempt together with the render that created its handler. -/
structure Dispatch where
  view : ChatState
  attempt : Submission
deriving DecidableEq, Repr

/-- A sequence of submission attempts, each run by the handler of its own
render on the state the attempts before it left, with the callbacks they
schedule. -/
def submitAllAt : List Dispatch → ChatState → ChatState × List RequestClosure
  | [], s => (s, [])
  | d :: ds, s =>
    let r := submitAt d.view d.attempt s
    let rest := submitAllAt ds r.1
    (rest.1, r.2.toList ++ rest.2)

/-! ## Sessions: the controller with its outstanding callbacks -/

/-- The controller state together with what is still to happen: the callbacks
handed to `setTimeout` that have not run, the requests that have not settled,
the requests sent so far, the side effects so far and the last clock reading. -/
structure Session where
  ui : ChatState
  timers : List RequestClosure
  inflight : List RequestClosure
  sent : List ChatRequest
  log : List Effect
  clock : Nat

/-- What can happen to a session: the input's `onChange`, a form submission, a
click on a suggestion button, a `setTimeout` callback, the settlement of a
request. -/
inductive Event
  | change (text : String)
  | send (now stamp : Nat)
  | click (question : String) (now stamp : Nat)
  | timer (c : RequestClosure)
  | completion (shuffle : List String → List String) (now stamp : Nat)
      (c : RequestClosure) (outcome : Outcome)

/-- The session right after the mount effect. -/
def boot (now stamp : Nat) : Session :=
  { ui := mount now stamp initialState, timers := [], inflight := [], sent := [],
    log := [], clock := stamp }

/-- A suggestion button with text `q` is rendered. -/
def offered (s : ChatState) (q : String) : Prop :=
  ∃ m ∈ s.messages, ∃ l, m.suggestedQuestions = some l ∧ q ∈ l

/-- When an event can happen: the input is disabled while loading, buttons
exist only for the suggestions of a stored message, a callback runs once after
it was scheduled, a request settles once after it was sent, the sort returns a
rearrangement, and the clock does not run backwards. -/
def Event.enabled : Event → Session → Prop
  | Event.change _, σ => σ.ui.isLoading = false
  | Event.send now stamp, σ => σ.clock ≤ now ∧ now ≤ stamp
  | Event.click q now stamp, σ => offered σ.ui q ∧ σ.clock ≤ now ∧ now ≤ stamp
  | Event.timer c, σ => c ∈ σ.timers
  | Event.completion shuffle now stamp c _, σ =>
    c ∈ σ.inflight ∧ (∀ l, List.Perm (shuffle l) l) ∧ σ.clock ≤ now ∧ now ≤ stamp

/-- The session after an event. -/
def Event.apply : Event → Session → Session
  | Event.change text, σ => { σ with ui := { σ.ui with inputMessage := text } }
  | Event.send now stamp, σ =>
    let r := handleSend now stamp σ.ui
    { σ with ui := r.1, timers := σ.timers ++ r.2.toList, clock := stamp }
  | Event.click q now stamp, σ =>
    let r := handleSuggestedQuestion q now stamp σ.ui
    { σ with ui := r.1, timers := σ.timers ++ r.2.toList, clock := stamp }
  | Event.timer c, σ =>
    let r := deferredIssue c σ.ui
    { σ with ui := r.1, timers := σ.timers.erase c,
             inflight := if r.2.isSome then σ.inflight ++ [c] else σ.inflight,
             sent := σ.sent ++ r.2.toList }
  | Event.completion shuffle now stamp c outcome, σ =>
    let r := settle shuffle now stamp c outcome σ.ui
    { σ with ui := r.1, inflight := σ.inflight.erase c, log := σ.log ++ r.2,
             clock := stamp }

/-- The sessions that can arise from a freshly mounted chat screen. -/
inductive Reachable : Session → Prop
  | boot (now stamp : Nat) (h : now ≤ stamp) : Reachable (boot now stamp)
  | step {σ : Session} (e : Event) (hσ : Reachable σ) (he : e.enabled σ) :
      Reachable (e.apply σ)

/-- Run a list of events from a session. -/
def runEvents : List Event → Session → Session
  | [], σ => σ
  | e :: es, σ => runEvents es (e.apply σ)

/-- Every event of a list can happen in turn. -/
def enabledAll : List Event → Session → Prop
  | [], _ => True
  | e :: es, σ => e.enabled σ ∧ enabledAll es (e.apply σ)

/-- The question of the Brahmi scenario. -/
def brahmiQuestion : String := "What is Brahmi script?"

/-- The answer of the Brahmi scenario. -/
def brahmiAnswer : String := "Brahmi is an ancient script..."

/-- The callback scheduled by the first submission of `text` on the welcome
state: request id 1, the history holding the question alone. -/
def firstClosure (text : String) : RequestClosure :=
  { currentRequestId := 1, currentInput := text,
    conversationHistory := [{ role := "user", text := text, sender := Sender.user }] }

/-- The Brahmi scenario: mount, type the question, submit it, let the deferred
callback send the request, receive the answer. -/
def brahmiScenario (shuffle : List String → List String)
    (n0 t0 n1 t1 n2 t2 : Nat) : Session :=
  runEvents
    [Event.change brahmiQuestion, Event.send n1 t1, Event.timer (firstClosure brahmiQuestion),
     Event.completion shuffle n2 t2 (firstClosure brahmiQuestion)
       (Outcome.fulfilled (some brahmiAnswer))]
    (boot n0 t0)

/-- A submission attempt, then the deferred callback it scheduled, then the
rejection of the request that callback sent. -/
def failedExchange (e : Submission) (now stamp : Nat) (s : ChatState) :
    ChatState × List Effect :=
  match submit e s with
  | (s1, some c) => settle id now stamp c Outcome.rejected (deferredIssue c s1).1
  | (s1, none) => (s1, [])

/-- A first exchange that failed: mount at time 0, type "a" and submit it at
1000 ms, the request is sent and rejected at 1010 ms. -/
def afterFirstFailure : Session :=
  runEvents
    [Event.change "a", Event.send 1000 1000, Event.timer (firstClosure "a"),
     Event.completion id 1010 1010 (firstClosure "a") Outcome.rejected]
    (boot 0 0)

/-! ## The request body -/

/-- The object `chatWithBot` serializes into the body of its POST request. -/
def chatWithBotBody (message : String) (conversationHistory : List HistoryEntry) :
    ChatRequest :=
  { message := message, conversation_history := conversationHistory }

/-- A JSON value: what `JSON.stringify` serializes and `response.json()`
parses; objects list their fields in insertion order, numbers are integers
here. -/
inductive Json
  | null
  | bool (b : Bool)
  | num (n : Int)
  | str (s : String)
  | arr (items : List Json)
  | obj (fields : List (String × Json))

/-- Names of the fields of a JSON object. -/
def Json.keys : Json → List String
  | Json.obj fields => fields.map Prod.fst
  | _ => []

/-- The string a `sender` field holds. -/
def senderText : Sender → String
  | Sender.user => "user"
  | Sender.bot => "bot"

/-- The serialized form of one history entry: the object literal of the `map`
call has the properties `role`, `text` and `sender`. -/
def HistoryEntry.toJson (e : HistoryEntry) : Json :=
  Json.obj [("role", Json.str e.role), ("text", Json.str e.text),
            ("sender", Json.str (senderText e.sender))]

/-- The serialized form of the request body. -/
def ChatRequest.toJson (r : ChatRequest) : Json :=
  Json.obj [("message", Json.str r.message),
            ("conversation_history", Json.arr (r.conversation_history.map HistoryEntry.toJson))]

/-! ## Further scenarios -/

/-- The callback scheduled by the second submission, of `text`, after a first
exchange of `first` and `reply`. -/
def secondClosure (first reply text : String) : RequestClosure :=
  { currentRequestId := 2, currentInput := text,
    conversationHistory :=
      [{ role := "user", text := first, sender := Sender.user },
       { role := "assistant", text := reply, sender := Sender.bot },
       { role := "user", text := text, sender := Sender.user }] }

/-- A second question awaiting its answer: "a" submitted at 1000 ms and answered
"ok" at 1010 ms, then "b" submitted at 1100 ms and its request sent. -/
def awaitingSecondAnswer : Session :=
  runEvents
    [Event.change "a", Event.send 1000 1000, Event.timer (firstClosure "a"),
     Event.completion id 1010 1010 (firstClosure "a") (Outcome.fulfilled (some "ok")),
     Event.change "b", Event.send 1100 1100, Event.timer (secondClosure "a" "ok" "b")]
    (boot 0 0)

/-- A reply without an `answer` field: "hello" submitted at 1000 ms, the request
sent, the promise fulfilled at 1010 ms with a body that has no `answer`. -/
def afterMissingAnswer : Session :=
  runEvents
    [Event.change "hello", Event.send 1000 1000, Event.timer (firstClosure "hello"),
     Event.completion id 1010 1010 (firstClosure "hello") (Outcome.fulfilled none)]
    (boot 0 0)

/-- A question submitted one millisecond after the previous reply arrived: "a"
submitted at 1000 ms and answered "ok" at 1010 ms, "b" submitted at 1011 ms. -/
def afterQuickFollowUp : Session :=
  runEvents
    [Event.change "a", Event.send 1000 1000, Event.timer (firstClosure "a"),
     Event.completion id 1010 1010 (firstClosure "a") (Outcome.fulfilled (some "ok")),
     Event.change "b", Event.send 1011 1011]
    (boot 0 0)

/-- A submission attempt, then the deferred callback it scheduled, then the
fulfilment with `answer` of the request that callback sent. -/
def answeredExchange (shuffle : List String → List String) (e : Submission)
    (answer : String) (now stamp : Nat) (s : ChatState) : ChatState × List Effect :=
  match submit e s with
  | (s1, some c) =>
    settle shuffle now stamp c (Outcome.fulfilled (some answer)) (deferredIssue c s1).1
  | (s1, none) => (s1, [])

/-! ## Request ids allocated along a run -/

/-- The callback an event hands to `setTimeout`, if any. -/
def scheduledBy : Event → Session → Option RequestClosure
  | Event.send now stamp, σ => (handleSend now stamp σ.ui).2
  | Event.click q now stamp, σ => (handleSuggestedQuestion q now stamp σ.ui).2
  | _, _ => none

/-- The request ids allocated by a run of events, in the order of allocation. -/
def allocatedIds : List Event → Session → List Nat
  | [], _ => []
  | e :: es, σ =>
    ((scheduledBy e σ).map fun c => c.currentRequestId).toList ++ allocatedIds es (e.apply σ)

/-! ## The catalogue of suggestions -/

/-- The eighteen strings a suggestion button can carry: the suggestions of the
welcome message, the candidates of the four topics, the generic candidates. -/
def catalogue : List String :=
  welcomeSuggestions ++ brahmiQuestions ++ ocrQuestions ++ tamilQuestions ++
    scriptQuestions ++ genericQuestions

/-! ## The candidate pool in the words of the specification -/

/-- The four topic keywords, in the order of the tests. -/
def topicKeywords : List String := ["brahmi", "ocr", "tamil", "script"]

/-- The fixed candidate list of a topic keyword. -/
def candidatesOf (keyword : String) : List String :=
  if keyword = "brahmi" then brahmiQuestions
  else if keyword = "ocr" then ocrQuestions
  else if keyword = "tamil" then tamilQuestions
  else if keyword = "script" then scriptQuestions
  else []

/-- The topics whose keyword occurs in the lower-cased answer or in the
lower-cased question, in the order brahmi, ocr, tamil, script. -/
def matchedTopics (answer userQuestion : String) : List String :=
  topicKeywords.filter fun k =>
    includes (toLowerCase answer) k || includes (toLowerCase userQuestion) k

/-- The candidate pool as the specification describes it: the candidate lists
of the matched topics one after the other, or the generic list when no topic
matched. To be compared with `suggestions`, which follows the code. -/
def poolBySpec (answer userQuestion : String) : List String :=
  if (matchedTopics answer userQuestion).isEmpty then genericQuestions
  else (matchedTopics answer userQuestion).flatMap candidatesOf

/-- Two characters that are equal or are the two cases of one ASCII letter. -/
def sameUpToCase (x y : Char) : Bool :=
  x == y || (x.isAlpha && y.isAlpha && x.toLower == y.toLower)

/-- Two texts that differ at most in the case of ASCII letters. -/
def differOnlyInCase (a b : String) : Bool :=
  a.data.length == b.data.length && (a.data.zip b.data).all fun p => sameUpToCase p.1 p.2

/-! ## Coherence of the pending marker, the loading flag and the timers -/

/-- What holds of every reachable session: a pending marker implies the
loading flag and that no scheduled callback carries the current request id; a
scheduled callback carries an id up to the counter, and the loading flag is
set when it carries the counter itself; no two scheduled callbacks share an
id. -/
def Coherent (σ : Session) : Prop :=
  (∀ n, σ.ui.pendingRequestRef = some n →
    σ.ui.isLoading = true ∧ ∀ c ∈ σ.timers, c.currentRequestId ≠ σ.ui.requestIdRef) ∧
  (∀ c ∈ σ.timers, c.currentRequestId ≤ σ.ui.requestIdRef ∧
    (c.currentRequestId = σ.ui.requestIdRef → σ.ui.isLoading = true)) ∧
  (σ.timers.map fun c => c.currentRequestId).Nodup

/-! ## The latest allocated request of a run -/

/-- The callback scheduled last along a run of events: the closure of the
latest allocated request. -/
def lastScheduled : List Event → Session → Option RequestClosure
  | [], _ => none
  | e :: es, σ =>
    match lastScheduled es (e.apply σ) with
    | some c => some c
    | none => scheduledBy e σ

/-! ## The request wrapper `chatWithBot` -/

/-- What awaiting `fetch` gives: a rejection (no response at all), or a
response with its `ok` flag and its body, `none` when the body is not JSON
text and `response.json()` rejects. -/
inductive FetchResult
  | networkFailure
  | response (ok : Bool) (body : Option Json)

/-- How the promise returned by `chatWithBot` rejects: with the rejection of
`fetch`, with the syntax error of `response.json()`, with the type error of a
property read on `null`, or with the `Error` the function throws itself. -/
inductive ChatFailure
  | network
  | syntaxError
  | typeError
  | error (message : String)

/-- The property read `value.name`: a field of an object, undefined (`none`)
on any other value that is not `null`. -/
def Json.field (name : String) : Json → Option Json
  | Json.obj fields => fields.lookup name
  | _ => none

/-- Truthiness of a JSON value in JavaScript. -/
def Json.truthy : Json → Bool
  | Json.null => false
  | Json.bool b => b
  | Json.num n => n != 0
  | Json.str s => s != ""
  | Json.arr _ => true
  | Json.obj _ => true

/-- The default message of the error thrown by `chatWithBot`. -/
def defaultChatError : String := "Failed to get response from chatbot"

/-- The message of `new Error(value)`: the string itself, or its string
conversion `toStr value` for a value that is not a string. -/
def errorMessageOf (toStr : Json → String) : Json → String
  | Json.str s => s
  | value => toStr value

/-- The function `chatWithBot` of `utils/api.js`, from the settled `fetch` on;
`toStr` is the string conversion of JavaScript for values that are not
strings. -/
def chatWithBot (toStr : Json → String) : FetchResult → Except ChatFailure Json
  | FetchResult.networkFailure => Except.error ChatFailure.network
  | FetchResult.response true (some body) => Except.ok body
  | FetchResult.response true none => Except.error ChatFailure.syntaxError
  | FetchResult.response false none => Except.error ChatFailure.syntaxError
  | FetchResult.response false (some Json.null) => Except.error ChatFailure.typeError
  | FetchResult.response false (some errorData) =>
    match errorData.field "detail" with
    | some detail =>
      if detail.truthy then Except.error (ChatFailure.error (errorMessageOf toStr detail))
      else Except.error (ChatFailure.error defaultChatError)
    | none => Except.error (ChatFailure.error defaultChatError)

/-- How the controller sees the result of `chatWithBot`: a rejection, or a
fulfilment whose `answer` is the field `response.answer` when that is a
string. -/
def outcomeOf : Except ChatFailure Json → Outcome
  | Except.error _ => Outcome.rejected
  | Except.ok body =>
    match body.field "answer" with
    | some (Json.str a) => Outcome.fulfilled (some a)
    | _ => Outcome.fulfilled none

/-! ## The text of a submission -/

/-- The text a submission event submits: the input buffer for a form
submission, the clicked text for a suggestion click. -/
def submittedText : Event → Session → Option String
  | Event.send _ _, σ => some σ.ui.inputMessage
  | Event.click q _ _, _ => some q
  | _, _ => none

/-- The idle welcome state with "hello" typed into the input. -/
def helloTyped : ChatState := { mount 0 0 initialState with inputMessage := "hello" }

end Chatbot

namespace Chatbot

set_option maxRecDepth 100000

/-! ## Basic facts about the string operations -/

theorem dropWhile_of_all {α : Type} (p : α → Bool) (l : List α)
    (h : l.all p = true) : l.dropWhile p = [] := by
  induction l with
  | nil => rfl
  | cons a t ih =>
    simp only [List.all_cons, Bool.and_eq_true] at h
    simp [List.dropWhile, h.1, ih h.2]

/-- A string of white space only trims to a falsy string. -/
theorem truthy_trim_of_blank (t : String) (h : t.data.all isWhiteSpace = true) :
    truthy (trim t) = false := by
  simp [truthy, trim, dropWhile_of_all isWhiteSpace t.data h]

/-- A string with a character that is not white space trims to a truthy one. -/
theorem truthy_trim_of_not_blank (t : String) (h : t.data.all isWhiteSpace = false) :
    truthy (trim t) = true := by
  have hne : t.data.dropWhile isWhiteSpace ≠ [] := by
    intro h0
    rw [List.dropWhile_eq_nil_iff] at h0
    have : t.data.all isWhiteSpace = true := by
      rw [List.all_eq_true]; exact h0
    rw [this] at h; exact Bool.noConfusion h
  have ha : isWhiteSpace ((t.data.dropWhile isWhiteSpace).head hne) = false := by
    simpa using List.head_dropWhile_not isWhiteSpace t.data hne
  have hmem : (t.data.dropWhile isWhiteSpace).head hne ∈
      (t.data.dropWhile isWhiteSpace).reverse :=
    List.mem_reverse.mpr (List.head_mem hne)
  have hne2 : (t.data.dropWhile isWhiteSpace).reverse.dropWhile isWhiteSpace ≠ [] := by
    intro h0
    rw [List.dropWhile_eq_nil_iff] at h0
    have := h0 _ hmem
    rw [ha] at this; exact Bool.noConfusion this
  simp [truthy, trim, hne2]

/-! ## Stale completions -/

/-- A completion handler that finds its request superseded returns at once. -/
theorem notCurrent_of_lt (c : RequestClosure) (s : ChatState)
    (h : c.currentRequestId < s.requestIdRef) : notCurrent c s = true := by
  have hne : c.currentRequestId ≠ s.requestIdRef := Nat.ne_of_lt h
  simp [notCurrent, hne]

/-- C1: a completion (success or failure) of request `n` delivered while the
latest allocated request id is `m > n` leaves the whole controller state as it
was, so the message list, the loading flag and the pending marker are
untouched, and it produces no side effect. -/
theorem stale_completion_ignored (shuffle : List String → List String) (now stamp : Nat)
    (c : RequestClosure) (outcome : Outcome) (s : ChatState) (n m : Nat) (hnm : n < m)
    (hc : c.currentRequestId = n) (hs : s.requestIdRef = m) :
    settle shuffle now stamp c outcome s = (s, []) ∧
    (settle shuffle now stamp c outcome s).1.messages = s.messages ∧
    (settle shuffle now stamp c outcome s).1.isLoading = s.isLoading ∧
    (settle shuffle now stamp c outcome s).1.pendingRequestRef = s.pendingRequestRef := by
  have hst : notCurrent c s = true := notCurrent_of_lt c s (by omega)
  have key : settle shuffle now stamp c outcome s = (s, []) := by
    cases outcome with
    | fulfilled answer => simp [settle, thenHandler, hst]
    | rejected => simp [settle, catchHandler, hst]
  rw [key]
  exact ⟨rfl, rfl, rfl, rfl⟩

/-- C1 at a concrete input: request 1 succeeds while request 2 is the latest. -/
theorem stale_completion_ignored_witness :
    (1 : Nat) < 2 ∧
    settle List.reverse 50 50
      { currentRequestId := 1, currentInput := "hello", conversationHistory := [] }
      (Outcome.fulfilled (some "an answer"))
      { messages := [welcomeMessage 0 0], inputMessage := "", isLoading := true,
        pendingRequestRef := some 2, requestIdRef := 2 } =
    ({ messages := [welcomeMessage 0 0], inputMessage := "", isLoading := true,
       pendingRequestRef := some 2, requestIdRef := 2 }, []) :=
  ⟨by decide,
   (stale_completion_ignored List.reverse 50 50
      { currentRequestId := 1, currentInput := "hello", conversationHistory := [] }
      (Outcome.fulfilled (some "an answer"))
      { messages := [welcomeMessage 0 0], inputMessage := "", isLoading := true,
        pendingRequestRef := some 2, requestIdRef := 2 } 1 2 (by decide) rfl rfl).1⟩

/-! ## Submissions while a request is awaited -/

theorem handleSend_of_loading (now stamp : Nat) (s : ChatState) (h : s.isLoading = true) :
    handleSend now stamp s = (s, none) := by
  simp [handleSend, h]

theorem handleSuggestedQuestion_of_loading (q : String) (now stamp : Nat) (s : ChatState)
    (h : s.isLoading = true) : handleSuggestedQuestion q now stamp s = (s, none) := by
  simp [handleSuggestedQuestion, h]

theorem submitAt_of_loading (view : ChatState) (e : Submission) (s : ChatState)
    (h : view.isLoading = true) : submitAt view e s = (s, none) := by
  cases e with
  | typed now stamp => simp [submitAt, handleSendAt, h]
  | suggestion q now stamp => simp [submitAt, handleSuggestedQuestionAt, h]

theorem submitAt_self (e : Submission) (s : ChatState) : submitAt s e s = submit e s := by
  cases e <;> rfl

theorem submitAllAt_of_loading (ds : List Dispatch) (s : ChatState)
    (h : ∀ d ∈ ds, d.view.isLoading = true) : submitAllAt ds s = (s, []) := by
  induction ds with
  | nil => rfl
  | cons d ds ih =>
    have hd : d.view.isLoading = true := h d (List.mem_cons_self d ds)
    have hrest : ∀ x ∈ ds, x.view.isLoading = true :=
      fun x hx => h x (List.mem_cons_of_mem d hx)
    simp [submitAllAt, submitAt_of_loading d.view d.attempt s hd, ih hrest]

/-- C2, as stated, fails in its last part: a handler reads the `isLoading` of
the render that created it, and `pendingRequestRef` is only set by the deferred
callback. Two form submissions dispatched by the handler of one render of the
idle welcome state with "hello" typed are therefore both admitted: the store
gets two user messages and the ids 1 and 2 are allocated, although the first
submission already set the loading flag. Of the two callbacks only the one
with id 2 sends a request. -/
theorem same_render_submissions_both_admitted :
    (submitAt helloTyped (Submission.typed 10 10) helloTyped).1.isLoading = true ∧
    (submitAllAt [{ view := helloTyped, attempt := Submission.typed 10 10 },
        { view := helloTyped, attempt := Submission.typed 11 11 }] helloTyped).1.messages =
      [welcomeMessage 0 0, userMessage "hello" 10 10, userMessage "hello" 11 11] ∧
    (submitAllAt [{ view := helloTyped, attempt := Submission.typed 10 10 },
        { view := helloTyped, attempt := Submission.typed 11 11 }] helloTyped).1.requestIdRef = 2 ∧
    ((submitAllAt [{ view := helloTyped, attempt := Submission.typed 10 10 },
        { view := helloTyped, attempt := Submission.typed 11 11 }] helloTyped).2.map
      fun c => c.currentRequestId) = [1, 2] ∧
    ((submitAllAt [{ view := helloTyped, attempt := Submission.typed 10 10 },
        { view := helloTyped, attempt := Submission.typed 11 11 }] helloTyped).2.map
      fun c => (deferredIssue c
        (submitAllAt [{ view := helloTyped, attempt := Submission.typed 10 10 },
          { view := helloTyped, attempt := Submission.typed 11 11 }]
          helloTyped).1).2.isSome) = [false, true] ∧
    (submitAllAt [{ view := helloTyped, attempt := Submission.typed 10 10 },
        { view := helloTyped, attempt := Submission.suggestion "What is Brahmi script?" 11 11 }]
      helloTyped).1.messages =
      [welcomeMessage 0 0, userMessage "hello" 10 10,
       userMessage "What is Brahmi script?" 11 11] := by
  refine ⟨by decide, by decide, by decide, by decide, by decide, by decide⟩

/-- C2, amended: a typed submission or a suggestion click whose handler was
created by a render with the loading flag set returns the state it runs on and
schedules no request, whatever the input buffer, the clicked text and that
state are: no message, no id, no change of buffer, flag or pending marker. So
does every sequence of attempts whose handlers were all created by renders
with the flag set; hence, when a first attempt leaves the controller loading
and every later attempt is made through a handler rendered after that, only
the first one appends a message and allocates an id. -/
theorem awaiting_rejects_submissions (s : ChatState) (h : s.isLoading = true) :
    (∀ now stamp, handleSend now stamp s = (s, none)) ∧
    (∀ q now stamp, handleSuggestedQuestion q now stamp s = (s, none)) ∧
    (∀ now stamp s2, handleSendAt s now stamp s2 = (s2, none)) ∧
    (∀ q now stamp s2, handleSuggestedQuestionAt s q now stamp s2 = (s2, none)) ∧
    (∀ (ds : List Dispatch) (s2 : ChatState), (∀ d ∈ ds, d.view.isLoading = true) →
      submitAllAt ds s2 = (s2, [])) ∧
    (∀ (s0 : ChatState) (e : Submission) (ds : List Dispatch), (submit e s0).1 = s →
      (∀ d ∈ ds, d.view.isLoading = true) →
      submitAllAt ({ view := s0, attempt := e } :: ds) s0 = (s, (submit e s0).2.toList) ∧
      (submitAllAt ({ view := s0, attempt := e } :: ds) s0).1.messages =
        (submit e s0).1.messages ∧
      (submitAllAt ({ view := s0, attempt := e } :: ds) s0).1.requestIdRef =
        (submit e s0).1.requestIdRef) := by
  refine ⟨fun now stamp => handleSend_of_loading now stamp s h,
    fun q now stamp => handleSuggestedQuestion_of_loading q now stamp s h,
    fun now stamp s2 => by simp [handleSendAt, h],
    fun q now stamp s2 => by simp [handleSuggestedQuestionAt, h],
    fun ds s2 hds => submitAllAt_of_loading ds s2 hds, ?_⟩
  intro s0 e ds he hds
  have key : submitAllAt ({ view := s0, attempt := e } :: ds) s0 =
      (s, (submit e s0).2.toList) := by
    simp [submitAllAt, submitAt_self, he, submitAllAt_of_loading ds s hds]
  rw [key, he]
  exact ⟨rfl, rfl, rfl⟩

/-- C2, amended, at a concrete input: "hello" is admitted from the welcome
state; a click and a second form submission made through handlers of the
render that followed change nothing. -/
theorem awaiting_rejects_submissions_witness :
    (handleSend 10 10 helloTyped).1.isLoading = true ∧
    submitAllAt
      [{ view := helloTyped, attempt := Submission.typed 10 10 },
       { view := (handleSend 10 10 helloTyped).1,
         attempt := Submission.suggestion "What is Brahmi script?" 11 11 },
       { view := (handleSend 10 10 helloTyped).1, attempt := Submission.typed 12 12 }]
      helloTyped =
    ((handleSend 10 10 helloTyped).1, (handleSend 10 10 helloTyped).2.toList) :=
  ⟨by decide,
   ((awaiting_rejects_submissions (handleSend 10 10 helloTyped).1 (by decide)).2.2.2.2.2
      helloTyped (Submission.typed 10 10)
      [{ view := (handleSend 10 10 helloTyped).1,
         attempt := Submission.suggestion "What is Brahmi script?" 11 11 },
       { view := (handleSend 10 10 helloTyped).1, attempt := Submission.typed 12 12 }]
      rfl (by decide)).1⟩

/-! ## Blank input -/

/-- With an empty or white-space-only buffer `handleSend` returns at its first
guard. -/
theorem handleSend_of_blank (now stamp : Nat) (s : ChatState)
    (h : s.inputMessage.data.all isWhiteSpace = true) :
    handleSend now stamp s = (s, none) := by
  simp [handleSend, truthy_trim_of_blank s.inputMessage h]

/-! ## Suggestion clicks and typed submissions -/

/-- For a text with a character that is not white space, a click on it and a
typed submission with the buffer holding it run the same code: same messages,
loading flag, counter, pending marker and scheduled request on every state, and
the same input buffer unless the loading flag was set. -/
theorem click_eq_typed_of_not_blank (q : String) (now stamp : Nat) (s : ChatState)
    (hq : q.data.all isWhiteSpace = false) :
    (handleSuggestedQuestion q now stamp s).1.messages =
      (handleSend now stamp { s with inputMessage := q }).1.messages ∧
    (handleSuggestedQuestion q now stamp s).1.isLoading =
      (handleSend now stamp { s with inputMessage := q }).1.isLoading ∧
    (handleSuggestedQuestion q now stamp s).1.requestIdRef =
      (handleSend now stamp { s with inputMessage := q }).1.requestIdRef ∧
    (handleSuggestedQuestion q now stamp s).1.pendingRequestRef =
      (handleSend now stamp { s with inputMessage := q }).1.pendingRequestRef ∧
    (handleSuggestedQuestion q now stamp s).2 =
      (handleSend now stamp { s with inputMessage := q }).2 ∧
    (∀ s2 : ChatState,
      ((handleSuggestedQuestion q now stamp s).2.map fun c => (deferredIssue c s2).2) =
      ((handleSend now stamp { s with inputMessage := q }).2.map fun c => (deferredIssue c s2).2)) ∧
    (s.isLoading = false →
      handleSuggestedQuestion q now stamp s =
        handleSend now stamp { s with inputMessage := q }) ∧
    handleSuggestedQuestion q now stamp { s with inputMessage := q } =
      handleSend now stamp { s with inputMessage := q } := by
  have ht := truthy_trim_of_not_blank q hq
  cases hl : s.isLoading <;> cases hp : s.pendingRequestRef <;>
    simp [handleSuggestedQuestion, handleSend, acceptSubmission, ht, hl, hp]

/-! ## The outbound history -/

theorem keptInHistory_welcomeMessage (now stamp : Nat) :
    keptInHistory (welcomeMessage now stamp) = false := by
  have h : includes welcomeText welcomeSentinel = true := by decide
  simp [keptInHistory, welcomeMessage, h]

theorem filter_keptInHistory_of_clean (rest : List Message)
    (h : ∀ m ∈ rest, m.sender = Sender.bot → includes m.text welcomeSentinel = false) :
    rest.filter keptInHistory = rest := by
  rw [List.filter_eq_self]
  intro m hm
  cases hs : m.sender with
  | user => simp [keptInHistory, hs]
  | bot => simp [keptInHistory, hs, h m hm hs]

/-- C5, as stated, fails: a later bot reply whose text contains the literal
"Hello! I'm your AI assistant" is dropped from the history as well, so a store
of three messages that starts with the welcome message yields a history of one
entry, not two. -/
theorem later_bot_reply_filtered :
    conversationHistory
      [welcomeMessage 0 0, userMessage "hi" 10 10,
       botMessage List.reverse "Hello! I'm your AI assistant, ask me anything." "hi" 20 20] =
      [{ role := "user", text := "hi", sender := Sender.user }] ∧
    (conversationHistory
      [welcomeMessage 0 0, userMessage "hi" 10 10,
       botMessage List.reverse "Hello! I'm your AI assistant, ask me anything." "hi" 20 20]).length ≠
    [welcomeMessage 0 0, userMessage "hi" 10 10,
       botMessage List.reverse "Hello! I'm your AI assistant, ask me anything." "hi" 20 20].length - 1 := by
  decide

/-- C5, amended: for every store that starts with the welcome message and
whose later bot messages do not contain the literal "Hello! I'm your AI
assistant", the outbound history is, in store order, the projection of every
message other than the first one, so its length is the store length minus
one; a bot message is left out exactly when its text contains that literal. -/
theorem history_drops_welcome (now stamp : Nat) (rest : List Message)
    (h : ∀ m ∈ rest, m.sender = Sender.bot → includes m.text welcomeSentinel = false) :
    conversationHistory (welcomeMessage now stamp :: rest) = rest.map toEntry ∧
    (conversationHistory (welcomeMessage now stamp :: rest)).length =
      (welcomeMessage now stamp :: rest).length - 1 ∧
    (∀ msgs : List Message, ∀ m ∈ msgs,
      (toEntry m ∈ conversationHistory msgs ∨
        (m.sender = Sender.bot ∧ includes m.text welcomeSentinel = true))) := by
  have key : conversationHistory (welcomeMessage now stamp :: rest) = rest.map toEntry := by
    simp [conversationHistory, List.filter_cons, keptInHistory_welcomeMessage,
      filter_keptInHistory_of_clean rest h]
  refine ⟨key, ?_, ?_⟩
  · rw [key]; simp
  · intro msgs m hm
    cases hk : keptInHistory m with
    | true =>
      left
      exact List.mem_map.mpr ⟨m, List.mem_filter.mpr ⟨hm, hk⟩, rfl⟩
    | false =>
      right
      cases hs : m.sender with
      | user => simp [keptInHistory, hs] at hk
      | bot => simpa [keptInHistory, hs] using hk

/-- C5, amended, at a concrete input: welcome, a question, an ordinary reply. -/
theorem history_drops_welcome_witness :
    (∀ m ∈ [userMessage "hi" 10 10, botMessage List.reverse "Brahmi is a script." "hi" 20 20],
      m.sender = Sender.bot → includes m.text welcomeSentinel = false) ∧
    conversationHistory
      [welcomeMessage 0 0, userMessage "hi" 10 10,
       botMessage List.reverse "Brahmi is a script." "hi" 20 20] =
      [{ role := "user", text := "hi", sender := Sender.user },
       { role := "assistant", text := "Brahmi is a script.", sender := Sender.bot }] :=
  ⟨by decide,
   (history_drops_welcome 0 0
      [userMessage "hi" 10 10, botMessage List.reverse "Brahmi is a script." "hi" 20 20]
      (by decide)).1⟩

/-- C6: the history built from a store that holds only the welcome message
set by the mount effect is empty, whatever the clock readings were. -/
theorem history_of_welcome_only (now stamp : Nat) :
    conversationHistory (mount now stamp initialState).messages = [] ∧
    conversationHistory [welcomeMessage now stamp] = [] := by
  simp [conversationHistory, mount, List.filter_cons, keptInHistory_welcomeMessage]

/-! ## The suggestion generator -/

theorem suggestions_eq_poolOf (answer userQuestion : String) :
    suggestions answer userQuestion =
      poolOf (mentions answer userQuestion "brahmi") (mentions answer userQuestion "ocr")
        (mentions answer userQuestion "tamil") (mentions answer userQuestion "script") := rfl

theorem poolOf_length (b o t c : Bool) : 3 ≤ (poolOf b o t c).length := by
  cases b <;> cases o <;> cases t <;> cases c <;> decide

theorem poolOf_nodup (b o t c : Bool) : (poolOf b o t c).Nodup := by
  cases b <;> cases o <;> cases t <;> cases c <;> decide

theorem mem_poolOf (b o t c : Bool) (x : String) (hx : x ∈ poolOf b o t c) :
    (b = true ∧ x ∈ brahmiQuestions) ∨ (o = true ∧ x ∈ ocrQuestions) ∨
    (t = true ∧ x ∈ tamilQuestions) ∨ (c = true ∧ x ∈ scriptQuestions) ∨
    (b = false ∧ o = false ∧ t = false ∧ c = false ∧ x ∈ genericQuestions) := by
  cases b <;> cases o <;> cases t <;> cases c <;>
    simp [poolOf, brahmiQuestions, ocrQuestions, tamilQuestions, scriptQuestions,
      genericQuestions] at hx ⊢ <;> tauto

theorem mem_generate (shuffle : List String → List String)
    (hperm : ∀ l, List.Perm (shuffle l) l) (answer userQuestion x : String)
    (hx : x ∈ generateSuggestedQuestions shuffle answer userQuestion) :
    x ∈ suggestions answer userQuestion :=
  (hperm _).mem_iff.mp (List.mem_of_mem_take hx)

theorem generate_length (shuffle : List String → List String)
    (hperm : ∀ l, List.Perm (shuffle l) l) (answer userQuestion : String) :
    (generateSuggestedQuestions shuffle answer userQuestion).length = 3 := by
  have h3 : 3 ≤ (suggestions answer userQuestion).length := by
    rw [suggestions_eq_poolOf]; exact poolOf_length _ _ _ _
  have hlen := (hperm (suggestions answer userQuestion)).length_eq
  simp only [generateSuggestedQuestions, List.length_take]
  omega

/-- C7: for every answer, every question and every rearrangement the sort may
return, `generateSuggestedQuestions` returns between 1 and 3 strings, and each
of them belongs to the candidate list of a topic whose keyword occurs in the
lower-cased answer or question, or to the generic list when no keyword
occurs. -/
theorem generate_bounded_and_from_pool (shuffle : List String → List String)
    (hperm : ∀ l, List.Perm (shuffle l) l) (answer userQuestion : String) :
    1 ≤ (generateSuggestedQuestions shuffle answer userQuestion).length ∧
    (generateSuggestedQuestions shuffle answer userQuestion).length ≤ 3 ∧
    ∀ x ∈ generateSuggestedQuestions shuffle answer userQuestion,
      (mentions answer userQuestion "brahmi" = true ∧ x ∈ brahmiQuestions) ∨
      (mentions answer userQuestion "ocr" = true ∧ x ∈ ocrQuestions) ∨
      (mentions answer userQuestion "tamil" = true ∧ x ∈ tamilQuestions) ∨
      (mentions answer userQuestion "script" = true ∧ x ∈ scriptQuestions) ∨
      (mentions answer userQuestion "brahmi" = false ∧ mentions answer userQuestion "ocr" = false ∧
        mentions answer userQuestion "tamil" = false ∧
        mentions answer userQuestion "script" = false ∧ x ∈ genericQuestions) := by
  have hlen := generate_length shuffle hperm answer userQuestion
  refine ⟨by omega, by omega, ?_⟩
  intro x hx
  have hmem := mem_generate shuffle hperm answer userQuestion x hx
  rw [suggestions_eq_poolOf] at hmem
  exact mem_poolOf _ _ _ _ x hmem

/-- C7 at a concrete input: a Tamil question, the pool reversed by the sort. -/
theorem generate_bounded_and_from_pool_witness :
    (∀ l : List String, List.Perm (List.reverse l) l) ∧
    generateSuggestedQuestions List.reverse "It reads printed text." "What is Tamil?" =
      ["What are the challenges in Tamil OCR?", "How is Tamil script recognized?",
       "What is Tamil OCR?"] ∧
    1 ≤ (generateSuggestedQuestions List.reverse "It reads printed text."
      "What is Tamil?").length :=
  ⟨fun l => List.reverse_perm l, by decide,
   (generate_bounded_and_from_pool List.reverse (fun l => List.reverse_perm l)
     "It reads printed text." "What is Tamil?").1⟩

/-- C8: for every answer, every question and every rearrangement the sort may
return, `generateSuggestedQuestions` returns min(3, pool size) strings that are
pairwise distinct; the pool always holds at least 3 candidates, so the result
has exactly 3 distinct strings. -/
theorem generate_without_replacement (shuffle : List String → List String)
    (hperm : ∀ l, List.Perm (shuffle l) l) (answer userQuestion : String) :
    (generateSuggestedQuestions shuffle answer userQuestion).length =
      min 3 (suggestions answer userQuestion).length ∧
    (generateSuggestedQuestions shuffle answer userQuestion).Nodup ∧
    3 ≤ (suggestions answer userQuestion).length ∧
    (generateSuggestedQuestions shuffle answer userQuestion).length = 3 := by
  have h3 : 3 ≤ (suggestions answer userQuestion).length := by
    rw [suggestions_eq_poolOf]; exact poolOf_length _ _ _ _
  have hlen := generate_length shuffle hperm answer userQuestion
  have hnd : (suggestions answer userQuestion).Nodup := by
    rw [suggestions_eq_poolOf]; exact poolOf_nodup _ _ _ _
  have hnd2 : (shuffle (suggestions answer userQuestion)).Nodup :=
    (hperm _).nodup_iff.mpr hnd
  refine ⟨by omega, ?_, h3, hlen⟩
  exact List.Nodup.sublist (List.take_sublist 3 _) hnd2

/-- C8 at a concrete input: two topics matched, six candidates, the sort
leaving the pool as it is. -/
theorem generate_without_replacement_witness :
    (∀ l : List String, List.Perm (id l) l) ∧
    (suggestions "OCR reads Tamil text." "hello").length = 6 ∧
    (generateSuggestedQuestions id "OCR reads Tamil text." "hello").Nodup :=
  ⟨fun l => List.Perm.refl l, by decide,
   (generate_without_replacement id (fun l => List.Perm.refl l)
     "OCR reads Tamil text." "hello").2.1⟩

/-! ## Runs of events -/

theorem reachable_runEvents (es : List Event) (σ : Session) (hσ : Reachable σ)
    (h : enabledAll es σ) : Reachable (runEvents es σ) := by
  induction es generalizing σ with
  | nil => exact hσ
  | cons e es ih => exact ih (e.apply σ) (Reachable.step e hσ h.1) h.2

/-! ## The Brahmi scenario -/

theorem suggestions_brahmi : suggestions brahmiAnswer brahmiQuestion =
    brahmiQuestions ++ scriptQuestions := by decide

/-- C9, as stated, fails: answer and question contain "script" as well as
"brahmi", so the pool has six candidates; when the sort returns the pool
reversed, the three suggestions of the appended bot message are the "script"
candidates and none of them is in the "brahmi" list. -/
theorem brahmi_scenario_leaves_brahmi_pool :
    (∀ l : List String, List.Perm (List.reverse l) l) ∧
    ((brahmiScenario List.reverse 0 0 10 10 20 20).ui.messages.getLast?.bind
        fun m => m.suggestedQuestions) =
      some ["What is script transliteration?", "How are scripts transcribed?",
            "What are the different Indian scripts?"] ∧
    "What is script transliteration?" ∉ brahmiQuestions ∧
    "How are scripts transcribed?" ∉ brahmiQuestions ∧
    "What are the different Indian scripts?" ∉ brahmiQuestions :=
  ⟨fun l => List.reverse_perm l, by decide, by decide, by decide, by decide⟩

theorem keptInHistory_userMessage (text : String) (now stamp : Nat) :
    keptInHistory (userMessage text now stamp) = true := by
  simp [keptInHistory, userMessage]

theorem handleSend_first (q : String) (hq : truthy (trim q) = true) (n0 t0 n1 t1 : Nat) :
    handleSend n1 t1 { mount n0 t0 initialState with inputMessage := q } =
      ({ messages := [welcomeMessage n0 t0, userMessage q n1 t1], inputMessage := "",
         isLoading := true, pendingRequestRef := none, requestIdRef := 1 },
       some (firstClosure q)) := by
  have hh : conversationHistory [welcomeMessage n0 t0, userMessage q n1 t1] =
      [{ role := "user", text := q, sender := Sender.user }] := by
    simp [conversationHistory, List.filter_cons, keptInHistory_welcomeMessage,
      keptInHistory_userMessage]
    simp [toEntry, userMessage]
  simp [handleSend, mount, initialState, acceptSubmission, hq, firstClosure, hh]

/-- C9, amended: after submitting "What is Brahmi script?" on a freshly mounted
screen (request id 1, history holding the question alone) and receiving the
answer "Brahmi is an ancient script...", for every rearrangement the sort may
return and every clock that does not run backwards, the store is the welcome
message, the question and one bot message whose three suggestedQuestions are
members of the "brahmi" or of the "script" candidate list, and the controller
is idle again. -/
theorem brahmi_scenario (shuffle : List String → List String)
    (hperm : ∀ l, List.Perm (shuffle l) l) (n0 t0 n1 t1 n2 t2 : Nat)
    (h0 : n0 ≤ t0) (h1 : t0 ≤ n1) (h2 : n1 ≤ t1) (h3 : t1 ≤ n2) (h4 : n2 ≤ t2) :
    Reachable (brahmiScenario shuffle n0 t0 n1 t1 n2 t2) ∧
    (brahmiScenario shuffle n0 t0 n1 t1 n2 t2).sent =
      [{ message := brahmiQuestion,
         conversation_history :=
           [{ role := "user", text := brahmiQuestion, sender := Sender.user }] }] ∧
    (brahmiScenario shuffle n0 t0 n1 t1 n2 t2).ui.messages =
      [welcomeMessage n0 t0, userMessage brahmiQuestion n1 t1,
       botMessage shuffle brahmiAnswer brahmiQuestion n2 t2] ∧
    (generateSuggestedQuestions shuffle brahmiAnswer brahmiQuestion).length = 3 ∧
    (∀ x ∈ generateSuggestedQuestions shuffle brahmiAnswer brahmiQuestion,
      x ∈ brahmiQuestions ∨ x ∈ scriptQuestions) ∧
    Idle (brahmiScenario shuffle n0 t0 n1 t1 n2 t2).ui := by
  have hq : truthy (trim brahmiQuestion) = true := by decide
  have hsend := handleSend_first brahmiQuestion hq n0 t0 n1 t1
  have hne1 : ¬ (n0 = n2 + 1) := by omega
  have hne2 : ¬ (n1 = n2 + 1) := by omega
  have htxt : ¬ (welcomeText = brahmiAnswer) := by decide
  have hrun : brahmiScenario shuffle n0 t0 n1 t1 n2 t2 =
      { ui := { messages := [welcomeMessage n0 t0, userMessage brahmiQuestion n1 t1,
                  botMessage shuffle brahmiAnswer brahmiQuestion n2 t2],
                inputMessage := "", isLoading := false, pendingRequestRef := none,
                requestIdRef := 1 },
        timers := [], inflight := [],
        sent := [{ message := brahmiQuestion,
                   conversation_history :=
                     [{ role := "user", text := brahmiQuestion, sender := Sender.user }] }],
        log := [], clock := t2 } := by
    simp only [brahmiScenario, runEvents, Event.apply, boot]
    rw [hsend]
    simp [deferredIssue, firstClosure, settle, thenHandler, notCurrent, appendUnlessExists,
      alreadyExists, welcomeMessage, userMessage, botMessage, hne1, hne2, htxt]
  have hlen := generate_length shuffle hperm brahmiAnswer brahmiQuestion
  have hmem : ∀ x ∈ generateSuggestedQuestions shuffle brahmiAnswer brahmiQuestion,
      x ∈ brahmiQuestions ∨ x ∈ scriptQuestions := by
    intro x hx
    have := mem_generate shuffle hperm brahmiAnswer brahmiQuestion x hx
    rw [suggestions_brahmi] at this
    exact List.mem_append.mp this
  have hreach : Reachable (brahmiScenario shuffle n0 t0 n1 t1 n2 t2) := by
    unfold brahmiScenario
    apply reachable_runEvents _ _ (Reachable.boot n0 t0 h0)
    simp only [enabledAll, Event.enabled, Event.apply, boot]
    rw [hsend]
    simp [deferredIssue, firstClosure, mount, initialState, h1, h2, h3, h4]
    exact hperm
  rw [hrun] at hreach ⊢
  exact ⟨hreach, rfl, rfl, hlen, hmem, rfl, rfl⟩

/-- C9, amended, at a concrete input: the sort leaves the pool as it is, the
three events happen 10 ms apart. -/
theorem brahmi_scenario_witness :
    (∀ l : List String, List.Perm (id l) l) ∧ (0 : Nat) ≤ 0 ∧ (0 : Nat) ≤ 10 ∧
    (10 : Nat) ≤ 10 ∧ (10 : Nat) ≤ 20 ∧ (20 : Nat) ≤ 20 ∧
    (brahmiScenario id 0 0 10 10 20 20).ui.messages =
      [welcomeMessage 0 0, userMessage brahmiQuestion 10 10,
       botMessage id brahmiAnswer brahmiQuestion 20 20] ∧
    (botMessage id brahmiAnswer brahmiQuestion 20 20).suggestedQuestions =
      some brahmiQuestions :=
  ⟨fun l => List.Perm.refl l, by decide, by decide, by decide, by decide, by decide,
   (brahmi_scenario id (fun l => List.Perm.refl l) 0 0 10 10 20 20 (by decide) (by decide)
     (by decide) (by decide) (by decide)).2.2.1,
   by decide⟩

/-! ## Failure of the latest request -/

theorem catchHandler_of_current (now stamp : Nat) (c : RequestClosure) (s : ChatState)
    (h : notCurrent c s = false) :
    catchHandler now stamp c s =
      ({ s with pendingRequestRef := none,
                messages := appendUnlessExists s.messages (errorMessage now stamp),
                isLoading := false },
       [Effect.consoleError, Effect.toastError toastText]) := by
  simp [catchHandler, h]

theorem failedExchange_typed (q : String) (hq : q.data.all isWhiteSpace = false)
    (n1 t1 n2 t2 : Nat) (s : ChatState) (hidle : Idle s) :
    failedExchange (Submission.typed n1 t1) n2 t2 { s with inputMessage := q } =
      ({ messages := appendUnlessExists (s.messages ++ [userMessage q n1 t1])
                       (errorMessage n2 t2),
         inputMessage := "", isLoading := false, pendingRequestRef := none,
         requestIdRef := s.requestIdRef + 1 },
       [Effect.consoleError, Effect.toastError toastText]) := by
  have ht := truthy_trim_of_not_blank q hq
  obtain ⟨hl, hp⟩ := hidle
  simp [failedExchange, submit, handleSend, acceptSubmission, ht, hl, hp, deferredIssue,
    settle, catchHandler, notCurrent]

theorem failedExchange_suggestion (q : String) (n1 t1 n2 t2 : Nat) (s : ChatState)
    (hidle : Idle s) :
    failedExchange (Submission.suggestion q n1 t1) n2 t2 s =
      ({ messages := appendUnlessExists (s.messages ++ [userMessage q n1 t1])
                       (errorMessage n2 t2),
         inputMessage := "", isLoading := false, pendingRequestRef := none,
         requestIdRef := s.requestIdRef + 1 },
       [Effect.consoleError, Effect.toastError toastText]) := by
  obtain ⟨hl, hp⟩ := hidle
  simp [failedExchange, submit, handleSuggestedQuestion, acceptSubmission, hl, hp,
    deferredIssue, settle, catchHandler, notCurrent]

theorem afterFirstFailure_reachable : Reachable afterFirstFailure := by
  unfold afterFirstFailure
  apply reachable_runEvents _ _ (Reachable.boot 0 0 (Nat.le_refl 0))
  simp only [enabledAll, Event.enabled]
  exact ⟨by decide, by decide, by decide,
    ⟨by decide, fun l => List.Perm.refl l, by decide, by decide⟩, trivial⟩

/-- C10, as stated, fails: in the reachable idle state left by a failure at
1010 ms (store: welcome, "a", error message), the non-blank question "b"
submitted at 1100 ms fails at 1200 ms; the duplicate test finds the earlier
error message (bot, same fixed text, 190 ms apart), so no bot message is
appended at all and the store ends with the user message "b". -/
theorem second_failure_appends_nothing :
    Reachable afterFirstFailure ∧ Idle afterFirstFailure.ui ∧
    ("b" : String).data.all isWhiteSpace = false ∧
    afterFirstFailure.ui.messages =
      [welcomeMessage 0 0, userMessage "a" 1000 1000, errorMessage 1010 1010] ∧
    (failedExchange (Submission.typed 1100 1100) 1200 1200
        { afterFirstFailure.ui with inputMessage := "b" }).1.messages =
      [welcomeMessage 0 0, userMessage "a" 1000 1000, errorMessage 1010 1010,
       userMessage "b" 1100 1100] ∧
    (failedExchange (Submission.suggestion "b" 1100 1100) 1200 1200
        afterFirstFailure.ui).1.messages =
      [welcomeMessage 0 0, userMessage "a" 1000 1000, errorMessage 1010 1010,
       userMessage "b" 1100 1100] ∧
    Idle (failedExchange (Submission.typed 1100 1100) 1200 1200
        { afterFirstFailure.ui with inputMessage := "b" }).1 :=
  ⟨afterFirstFailure_reachable, by decide, by decide, by decide, by decide, by decide,
   by decide⟩

/-- C10, amended: for every idle state and every question with a character that
is not white space, when the request of the submission (typed or clicked)
fails, the controller is idle again (loading flag and pending marker cleared),
the failure is logged and notified once, and the store is the store with the
user message plus exactly one bot message with isError = true and the fixed
text, unless that store already holds a message with the same id or a bot
message with the same text stamped less than 1000 ms from it, in which case
nothing is appended after the user message. -/
theorem failure_returns_to_idle (q : String) (hq : q.data.all isWhiteSpace = false)
    (n1 t1 n2 t2 : Nat) (s : ChatState) (hidle : Idle s) :
    Idle (failedExchange (Submission.typed n1 t1) n2 t2 { s with inputMessage := q }).1 ∧
    Idle (failedExchange (Submission.suggestion q n1 t1) n2 t2 s).1 ∧
    failedExchange (Submission.suggestion q n1 t1) n2 t2 s =
      failedExchange (Submission.typed n1 t1) n2 t2 { s with inputMessage := q } ∧
    (failedExchange (Submission.typed n1 t1) n2 t2 { s with inputMessage := q }).2 =
      [Effect.consoleError, Effect.toastError "Failed to get response from chatbot"] ∧
    (alreadyExists (s.messages ++ [userMessage q n1 t1]) (errorMessage n2 t2) = false →
      (failedExchange (Submission.typed n1 t1) n2 t2 { s with inputMessage := q }).1.messages =
        s.messages ++ [userMessage q n1 t1] ++ [errorMessage n2 t2]) ∧
    (alreadyExists (s.messages ++ [userMessage q n1 t1]) (errorMessage n2 t2) = true →
      (failedExchange (Submission.typed n1 t1) n2 t2 { s with inputMessage := q }).1.messages =
        s.messages ++ [userMessage q n1 t1]) ∧
    (errorMessage n2 t2).isError = true ∧ (errorMessage n2 t2).sender = Sender.bot ∧
    (errorMessage n2 t2).text = "Sorry, I encountered an error. Please try again later." := by
  rw [failedExchange_typed q hq n1 t1 n2 t2 s hidle, failedExchange_suggestion q n1 t1 n2 t2 s hidle]
  refine ⟨⟨rfl, rfl⟩, ⟨rfl, rfl⟩, rfl, rfl, ?_, ?_, rfl, rfl, rfl⟩
  · intro h
    simp [appendUnlessExists, h]
  · intro h
    simp [appendUnlessExists, h]

/-- C10, amended, at a concrete input: the first question on the welcome state
fails and its error message is appended. -/
theorem failure_returns_to_idle_witness :
    ("a" : String).data.all isWhiteSpace = false ∧ Idle (mount 0 0 initialState) ∧
    alreadyExists ((mount 0 0 initialState).messages ++ [userMessage "a" 1000 1000])
      (errorMessage 1010 1010) = false ∧
    (failedExchange (Submission.typed 1000 1000) 1010 1010
        { mount 0 0 initialState with inputMessage := "a" }).1.messages =
      (mount 0 0 initialState).messages ++ [userMessage "a" 1000 1000] ++
        [errorMessage 1010 1010] :=
  ⟨by decide, by decide, by decide,
   (failure_returns_to_idle "a" (by decide) 1000 1000 1010 1010 (mount 0 0 initialState)
     (by decide)).2.2.2.2.1 (by decide)⟩

/-! ## Success of the latest request -/

theorem notCurrent_of_current (c : RequestClosure) (s : ChatState)
    (hp : s.pendingRequestRef = some c.currentRequestId)
    (hid : c.currentRequestId = s.requestIdRef) : notCurrent c s = false := by
  simp [notCurrent, hp, hid.symm]

theorem settle_fulfilled_of_current (shuffle : List String → List String) (now stamp : Nat)
    (c : RequestClosure) (a : String) (s : ChatState) (h : notCurrent c s = false) :
    settle shuffle now stamp c (Outcome.fulfilled (some a)) s =
      ({ s with pendingRequestRef := none,
                messages := appendUnlessExists s.messages
                  (botMessage shuffle a c.currentInput now stamp),
                isLoading := false }, []) := by
  simp [settle, thenHandler, h]

theorem awaitingSecondAnswer_reachable : Reachable awaitingSecondAnswer := by
  unfold awaitingSecondAnswer
  apply reachable_runEvents _ _ (Reachable.boot 0 0 (Nat.le_refl 0))
  simp only [enabledAll, Event.enabled]
  exact ⟨by decide, by decide, by decide,
    ⟨by decide, fun l => List.Perm.refl l, by decide, by decide⟩,
    by decide, by decide, by decide, trivial⟩

/-- C11, as stated, fails: in the reachable state that awaits the answer to "b"
(store: welcome, "a", the reply "ok" stamped 1010 ms, "b"), the latest request
succeeds at 1200 ms with the answer "ok" again; the duplicate test finds the
earlier reply (bot, same text, 190 ms apart) and no bot message is appended:
the store still ends with the user message "b". -/
theorem repeated_answer_not_appended :
    Reachable awaitingSecondAnswer ∧ awaitingSecondAnswer.ui.isLoading = true ∧
    secondClosure "a" "ok" "b" ∈ awaitingSecondAnswer.inflight ∧
    awaitingSecondAnswer.ui.pendingRequestRef = some 2 ∧
    awaitingSecondAnswer.ui.requestIdRef = 2 ∧
    awaitingSecondAnswer.ui.messages =
      [welcomeMessage 0 0, userMessage "a" 1000 1000, botMessage id "ok" "a" 1010 1010,
       userMessage "b" 1100 1100] ∧
    (settle id 1200 1200 (secondClosure "a" "ok" "b") (Outcome.fulfilled (some "ok"))
        awaitingSecondAnswer.ui).1.messages =
      [welcomeMessage 0 0, userMessage "a" 1000 1000, botMessage id "ok" "a" 1010 1010,
       userMessage "b" 1100 1100] ∧
    Idle (settle id 1200 1200 (secondClosure "a" "ok" "b") (Outcome.fulfilled (some "ok"))
        awaitingSecondAnswer.ui).1 :=
  ⟨awaitingSecondAnswer_reachable, by decide, by decide, by decide, by decide, by decide,
   by decide, by decide⟩

/-- C11, amended: for every state whose latest request (pending marker and
counter both point at it) was issued for question `q`, when that request
succeeds with answer `a` the controller is idle again, input buffer and counter
are untouched, and a bot message with sender bot, text `a` and
suggestedQuestions = generateSuggestedQuestions(a, q), for the `q` captured at
submission and not the input buffer, is appended at the end of the store,
unless the store already holds a message with the same id or a bot message
with the same text stamped less than 1000 ms from it, in which case the store
is unchanged. The same holds for the whole exchange started by a typed
submission of a non-blank `q` in an idle state. -/
theorem success_appends_reply (shuffle : List String → List String) (now stamp : Nat)
    (c : RequestClosure) (q a : String) (s : ChatState)
    (hp : s.pendingRequestRef = some c.currentRequestId)
    (hid : c.currentRequestId = s.requestIdRef) (hq : c.currentInput = q) :
    Idle (settle shuffle now stamp c (Outcome.fulfilled (some a)) s).1 ∧
    (settle shuffle now stamp c (Outcome.fulfilled (some a)) s).2 = [] ∧
    (settle shuffle now stamp c (Outcome.fulfilled (some a)) s).1.inputMessage =
      s.inputMessage ∧
    (settle shuffle now stamp c (Outcome.fulfilled (some a)) s).1.requestIdRef =
      s.requestIdRef ∧
    (alreadyExists s.messages (botMessage shuffle a q now stamp) = false →
      (settle shuffle now stamp c (Outcome.fulfilled (some a)) s).1.messages =
        s.messages ++ [botMessage shuffle a q now stamp]) ∧
    (alreadyExists s.messages (botMessage shuffle a q now stamp) = true →
      (settle shuffle now stamp c (Outcome.fulfilled (some a)) s).1.messages = s.messages) ∧
    (botMessage shuffle a q now stamp).sender = Sender.bot ∧
    (botMessage shuffle a q now stamp).text = a ∧
    (botMessage shuffle a q now stamp).suggestedQuestions =
      some (generateSuggestedQuestions shuffle a q) ∧
    (botMessage shuffle a q now stamp).isError = false ∧
    (∀ (s0 : ChatState) (n1 t1 : Nat), Idle s0 → q.data.all isWhiteSpace = false →
      (answeredExchange shuffle (Submission.typed n1 t1) a now stamp
          { s0 with inputMessage := q }).1 =
        { messages := appendUnlessExists (s0.messages ++ [userMessage q n1 t1])
                        (botMessage shuffle a q now stamp),
          inputMessage := "", isLoading := false, pendingRequestRef := none,
          requestIdRef := s0.requestIdRef + 1 }) := by
  subst hq
  rw [settle_fulfilled_of_current shuffle now stamp c a s (notCurrent_of_current c s hp hid)]
  refine ⟨⟨rfl, rfl⟩, rfl, rfl, rfl, ?_, ?_, rfl, rfl, rfl, rfl, ?_⟩
  · intro h
    simp [appendUnlessExists, h]
  · intro h
    simp [appendUnlessExists, h]
  · intro s0 n1 t1 hidle hblank
    have ht := truthy_trim_of_not_blank c.currentInput hblank
    obtain ⟨hl, hp0⟩ := hidle
    simp [answeredExchange, submit, handleSend, acceptSubmission, ht, hl, hp0, deferredIssue,
      settle, thenHandler, notCurrent]

/-- C11, amended, at a concrete input: the first answer on a fresh screen is
appended with the suggestions computed from the question "What is Tamil?". -/
theorem success_appends_reply_witness :
    ({ messages := [welcomeMessage 0 0, userMessage "What is Tamil?" 1000 1000],
       inputMessage := "typed meanwhile", isLoading := true, pendingRequestRef := some 1,
       requestIdRef := 1 } : ChatState).pendingRequestRef =
      some (firstClosure "What is Tamil?").currentRequestId ∧
    alreadyExists [welcomeMessage 0 0, userMessage "What is Tamil?" 1000 1000]
      (botMessage List.reverse "A language." "What is Tamil?" 1010 1010) = false ∧
    (settle List.reverse 1010 1010 (firstClosure "What is Tamil?")
        (Outcome.fulfilled (some "A language."))
        { messages := [welcomeMessage 0 0, userMessage "What is Tamil?" 1000 1000],
          inputMessage := "typed meanwhile", isLoading := true, pendingRequestRef := some 1,
          requestIdRef := 1 }).1.messages =
      [welcomeMessage 0 0, userMessage "What is Tamil?" 1000 1000] ++
        [botMessage List.reverse "A language." "What is Tamil?" 1010 1010] ∧
    (botMessage List.reverse "A language." "What is Tamil?" 1010 1010).suggestedQuestions =
      some ["What are the challenges in Tamil OCR?", "How is Tamil script recognized?",
            "What is Tamil OCR?"] :=
  ⟨rfl, by decide,
   (success_appends_reply List.reverse 1010 1010 (firstClosure "What is Tamil?")
      "What is Tamil?" "A language."
      { messages := [welcomeMessage 0 0, userMessage "What is Tamil?" 1000 1000],
        inputMessage := "typed meanwhile", isLoading := true, pendingRequestRef := some 1,
        requestIdRef := 1 } rfl rfl rfl).2.2.2.2.1 (by decide),
   by decide⟩

/-! ## The submit transition -/

theorem conversationHistory_append_user (msgs : List Message) (q : String) (now stamp : Nat) :
    conversationHistory (msgs ++ [userMessage q now stamp]) =
      conversationHistory msgs ++ [{ role := "user", text := q, sender := Sender.user }] := by
  simp only [conversationHistory, List.filter_append, List.map_append, List.filter_cons,
    keptInHistory_userMessage, if_true, List.filter_nil, List.map_cons, List.map_nil]
  simp [toEntry, userMessage]

/-- C12: for every idle state and every text `q` with a character that is not
white space, a typed submission with the buffer holding `q` appends exactly
one user message with text `q`, sets the loading flag, clears the input
buffer, advances the counter by one and schedules a callback that posts the
body with message `q` and the history of the store including the new message,
whose last entry has role "user" and text `q`; a click on the suggestion `q`
does the same. From the welcome-only state the request has id 1 and a history
of exactly one entry. -/
theorem submit_transition (q : String) (hq : q.data.all isWhiteSpace = false)
    (now stamp : Nat) (s : ChatState) (hidle : Idle s) :
    (handleSend now stamp { s with inputMessage := q }).1 =
      { messages := s.messages ++ [userMessage q now stamp], inputMessage := "",
        isLoading := true, pendingRequestRef := none, requestIdRef := s.requestIdRef + 1 } ∧
    (userMessage q now stamp).text = q ∧ (userMessage q now stamp).sender = Sender.user ∧
    (handleSend now stamp { s with inputMessage := q }).2 =
      some { currentRequestId := s.requestIdRef + 1, currentInput := q,
             conversationHistory := conversationHistory (s.messages ++ [userMessage q now stamp]) } ∧
    ((handleSend now stamp { s with inputMessage := q }).2.map fun c =>
        deferredIssue c (handleSend now stamp { s with inputMessage := q }).1) =
      some ({ messages := s.messages ++ [userMessage q now stamp], inputMessage := "",
              isLoading := true, pendingRequestRef := some (s.requestIdRef + 1),
              requestIdRef := s.requestIdRef + 1 },
            some (chatWithBotBody q
              (conversationHistory (s.messages ++ [userMessage q now stamp])))) ∧
    (conversationHistory (s.messages ++ [userMessage q now stamp])).getLast? =
      some { role := "user", text := q, sender := Sender.user } ∧
    handleSuggestedQuestion q now stamp s = handleSend now stamp { s with inputMessage := q } ∧
    (∀ n0 t0 : Nat,
      (handleSend now stamp { mount n0 t0 initialState with inputMessage := q }).2 =
        some { currentRequestId := 1, currentInput := q,
               conversationHistory := [{ role := "user", text := q, sender := Sender.user }] } ∧
      (conversationHistory
        (handleSend now stamp { mount n0 t0 initialState with inputMessage := q }).1.messages).length
        = 1) := by
  have ht := truthy_trim_of_not_blank q hq
  obtain ⟨hl, hp⟩ := hidle
  refine ⟨?_, rfl, rfl, ?_, ?_, ?_, ?_, ?_⟩
  · simp [handleSend, acceptSubmission, ht, hl, hp]
  · simp [handleSend, acceptSubmission, ht, hl, hp]
  · simp [handleSend, acceptSubmission, ht, hl, hp, deferredIssue, chatWithBotBody]
  · rw [conversationHistory_append_user]
    simp
  · simp [handleSuggestedQuestion, handleSend, acceptSubmission, ht, hl, hp]
  · intro n0 t0
    rw [handleSend_first q ht n0 t0 now stamp]
    refine ⟨rfl, ?_⟩
    have := conversationHistory_append_user [welcomeMessage n0 t0] q now stamp
    simp only [List.singleton_append] at this
    rw [this]
    simp [conversationHistory, List.filter_cons, keptInHistory_welcomeMessage]

/-- C12 at a concrete input: "What is Brahmi script?" typed on the welcome
state. -/
theorem submit_transition_witness :
    ("What is Brahmi script?" : String).data.all isWhiteSpace = false ∧
    Idle (mount 0 0 initialState) ∧
    (handleSend 10 10
        { mount 0 0 initialState with inputMessage := "What is Brahmi script?" }).2 =
      some { currentRequestId := 1, currentInput := "What is Brahmi script?",
             conversationHistory :=
               [{ role := "user", text := "What is Brahmi script?", sender := Sender.user }] } :=
  ⟨by decide, by decide,
   ((submit_transition "What is Brahmi script?" (by decide) 10 10 (mount 0 0 initialState)
      (by decide)).2.2.2.2.2.2.2 0 0).1⟩

/-! ## The wire shape of the request -/

/-- C13, as stated, fails: each history entry is serialized with three fields,
`role`, `text` and `sender`; the body posted for the first question "hi" holds
the entry with role "user", text "hi" and sender "user". -/
theorem history_entry_has_sender_field :
    ChatRequest.toJson
        (chatWithBotBody "hi" (conversationHistory [welcomeMessage 0 0, userMessage "hi" 10 10])) =
      Json.obj
        [("message", Json.str "hi"),
         ("conversation_history",
          Json.arr [Json.obj [("role", Json.str "user"), ("text", Json.str "hi"),
                              ("sender", Json.str "user")]])] ∧
    (HistoryEntry.toJson (toEntry (userMessage "hi" 10 10))).keys = ["role", "text", "sender"] ∧
    (HistoryEntry.toJson (toEntry (userMessage "hi" 10 10))).keys ≠ ["role", "text"] := by
  refine ⟨?_, by decide, by decide⟩
  have h : conversationHistory [welcomeMessage 0 0, userMessage "hi" 10 10] =
      [{ role := "user", text := "hi", sender := Sender.user }] := by decide
  rw [h]
  rfl

/-- C13, amended: the request body has exactly the fields `message` and
`conversation_history`, and every entry of `conversation_history` consists of
exactly three fields: `role` ("user" for a user message, "assistant" for a bot
message), `text` (the message's text) and `sender` (the message's sender,
"user" or "bot"). -/
theorem request_wire_shape (message : String) (msgs : List Message) :
    (ChatRequest.toJson (chatWithBotBody message (conversationHistory msgs))).keys =
      ["message", "conversation_history"] ∧
    ChatRequest.toJson (chatWithBotBody message (conversationHistory msgs)) =
      Json.obj
        [("message", Json.str message),
         ("conversation_history",
          Json.arr ((msgs.filter keptInHistory).map fun m =>
            Json.obj [("role", Json.str (if m.sender = Sender.user then "user" else "assistant")),
                      ("text", Json.str m.text),
                      ("sender", Json.str (if m.sender = Sender.user then "user" else "bot"))]))] ∧
    (∀ e ∈ conversationHistory msgs, (HistoryEntry.toJson e).keys = ["role", "text", "sender"]) ∧
    (∀ (c : RequestClosure) (s : ChatState) (r : ChatRequest),
      (deferredIssue c s).2 = some r → r = chatWithBotBody c.currentInput c.conversationHistory) := by
  refine ⟨rfl, ?_, fun e _ => rfl, ?_⟩
  · simp only [ChatRequest.toJson, chatWithBotBody, conversationHistory, List.map_map]
    have hfun : (HistoryEntry.toJson ∘ toEntry) = fun m : Message =>
        Json.obj [("role", Json.str (if m.sender = Sender.user then "user" else "assistant")),
                  ("text", Json.str m.text),
                  ("sender", Json.str (if m.sender = Sender.user then "user" else "bot"))] := by
      funext m
      cases hs : m.sender <;> simp [HistoryEntry.toJson, toEntry, senderText, hs]
    rw [hfun]
  · intro c s r h
    unfold deferredIssue at h
    split at h
    · simp at h
    · simp only [Option.some.injEq] at h
      exact h.symm

/-! ## The duplicate guard -/

theorem natAbs_sub_lt (a b : Nat) :
    Int.natAbs ((a : Int) - (b : Int)) < 1000 ↔ a < b + 1000 ∧ b < a + 1000 := by
  omega

theorem alreadyExists_iff (prev : List Message) (b : Message) :
    alreadyExists prev b = true ↔
      ∃ msg ∈ prev, msg.id = b.id ∨
        (msg.sender = Sender.bot ∧ msg.text = b.text ∧
          msg.timestamp < b.timestamp + 1000 ∧ b.timestamp < msg.timestamp + 1000) := by
  simp only [alreadyExists, List.any_eq_true, Bool.or_eq_true, Bool.and_eq_true,
    beq_iff_eq, decide_eq_true_eq, natAbs_sub_lt]
  constructor
  · rintro ⟨msg, hm, h⟩
    exact ⟨msg, hm, by tauto⟩
  · rintro ⟨msg, hm, h⟩
    exact ⟨msg, hm, by tauto⟩

/-- C14: when a completion of the latest request appends a bot or error message
`b`, the store is left unchanged if and only if it already holds a message with
the id of `b`, or a bot message with the text of `b` whose timestamp differs
from that of `b` by less than 1000 ms; otherwise the store becomes the old
store with `b` appended at the end. Both completion handlers update the store
through this test. -/
theorem duplicate_suppression (prev : List Message) (b : Message) :
    (appendUnlessExists prev b = prev ↔
      ∃ msg ∈ prev, msg.id = b.id ∨
        (msg.sender = Sender.bot ∧ msg.text = b.text ∧
          msg.timestamp < b.timestamp + 1000 ∧ b.timestamp < msg.timestamp + 1000)) ∧
    ((¬ ∃ msg ∈ prev, msg.id = b.id ∨
        (msg.sender = Sender.bot ∧ msg.text = b.text ∧
          msg.timestamp < b.timestamp + 1000 ∧ b.timestamp < msg.timestamp + 1000)) →
      appendUnlessExists prev b = prev ++ [b]) ∧
    (∀ (shuffle : List String → List String) (now stamp : Nat) (c : RequestClosure)
        (a : String) (s : ChatState), notCurrent c s = false →
      (settle shuffle now stamp c (Outcome.fulfilled (some a)) s).1.messages =
        appendUnlessExists s.messages (botMessage shuffle a c.currentInput now stamp) ∧
      (settle shuffle now stamp c Outcome.rejected s).1.messages =
        appendUnlessExists s.messages (errorMessage now stamp)) := by
  refine ⟨?_, ?_, ?_⟩
  · rw [← alreadyExists_iff]
    cases h : alreadyExists prev b with
    | true => simp [appendUnlessExists, h]
    | false => simp [appendUnlessExists, h]
  · intro hno
    rw [← alreadyExists_iff] at hno
    simp [appendUnlessExists, hno]
  · intro shuffle now stamp c a s hcur
    rw [settle_fulfilled_of_current shuffle now stamp c a s hcur]
    simp [settle, catchHandler_of_current now stamp c s hcur]

/-! ## Double delivery of a completion -/

theorem notCurrent_of_no_pending (c : RequestClosure) (s : ChatState)
    (h : s.pendingRequestRef = none) : notCurrent c s = true := by
  simp [notCurrent, h]

theorem settle_of_notCurrent (shuffle : List String → List String) (now stamp : Nat)
    (c : RequestClosure) (outcome : Outcome) (s : ChatState) (h : notCurrent c s = true) :
    settle shuffle now stamp c outcome s = (s, []) := by
  cases outcome with
  | fulfilled answer => simp [settle, thenHandler, h]
  | rejected => simp [settle, catchHandler, h]

theorem settle_missing_answer_of_current (shuffle : List String → List String)
    (now stamp : Nat) (c : RequestClosure) (s : ChatState) (h : notCurrent c s = false) :
    settle shuffle now stamp c (Outcome.fulfilled none) s =
      ({ s with pendingRequestRef := none }, []) := by
  have h2 : notCurrent c { s with pendingRequestRef := none } = true :=
    notCurrent_of_no_pending c _ rfl
  simp [settle, thenHandler, h, catchHandler, h2]

theorem settle_clears_or_keeps (shuffle : List String → List String) (now stamp : Nat)
    (c : RequestClosure) (outcome : Outcome) (s : ChatState) :
    notCurrent c (settle shuffle now stamp c outcome s).1 = true := by
  cases hcur : notCurrent c s with
  | true => rw [settle_of_notCurrent shuffle now stamp c outcome s hcur]; exact hcur
  | false =>
    apply notCurrent_of_no_pending
    cases outcome with
    | fulfilled answer =>
      cases answer with
      | none => rw [settle_missing_answer_of_current shuffle now stamp c s hcur]
      | some a => simp [settle, thenHandler, hcur]
    | rejected => simp [settle, catchHandler, hcur]

/-- C15: delivering a completion of a request twice in succession, whatever the
clock readings and the sort outcome of the second delivery, leaves the
controller in exactly the state the first delivery produced (same store,
loading flag and pending marker): the second delivery appends no message and
has no side effect, for every state and every outcome (success or failure). -/
theorem double_delivery_suppressed (shuffle shuffle2 : List String → List String)
    (now stamp now2 stamp2 : Nat) (c : RequestClosure) (outcome : Outcome) (s : ChatState) :
    settle shuffle2 now2 stamp2 c outcome (settle shuffle now stamp c outcome s).1 =
      ((settle shuffle now stamp c outcome s).1, []) ∧
    (settle shuffle2 now2 stamp2 c outcome (settle shuffle now stamp c outcome s).1).1.messages =
      (settle shuffle now stamp c outcome s).1.messages ∧
    (settle shuffle2 now2 stamp2 c outcome (settle shuffle now stamp c outcome s).1).1.isLoading =
      (settle shuffle now stamp c outcome s).1.isLoading ∧
    (settle shuffle2 now2 stamp2 c outcome
        (settle shuffle now stamp c outcome s).1).1.pendingRequestRef =
      (settle shuffle now stamp c outcome s).1.pendingRequestRef := by
  have key := settle_of_notCurrent shuffle2 now2 stamp2 c outcome
    (settle shuffle now stamp c outcome s).1 (settle_clears_or_keeps shuffle now stamp c outcome s)
  rw [key]
  exact ⟨rfl, rfl, rfl, rfl⟩

/-! ## A reply without an answer -/

theorem afterMissingAnswer_reachable : Reachable afterMissingAnswer := by
  unfold afterMissingAnswer
  apply reachable_runEvents _ _ (Reachable.boot 0 0 (Nat.le_refl 0))
  simp only [enabledAll, Event.enabled]
  exact ⟨by decide, by decide, by decide,
    ⟨by decide, fun l => List.Perm.refl l, by decide, by decide⟩, trivial⟩

/-- A loading session without outstanding callbacks or requests stays loading,
with the same store, whatever happens next. -/
theorem loading_without_callbacks_is_stuck (es : List Event) (σ : Session)
    (hl : σ.ui.isLoading = true) (ht : σ.timers = []) (hi : σ.inflight = [])
    (hen : enabledAll es σ) :
    (runEvents es σ).ui.isLoading = true ∧ (runEvents es σ).ui.messages = σ.ui.messages := by
  induction es generalizing σ with
  | nil => exact ⟨hl, rfl⟩
  | cons e es ih =>
    obtain ⟨he, hrest⟩ := hen
    cases e with
    | change text =>
      simp only [Event.enabled] at he
      rw [hl] at he
      exact Bool.noConfusion he
    | send now stamp =>
      have hui : (Event.apply (Event.send now stamp) σ).ui = σ.ui := by
        simp [Event.apply, handleSend_of_loading now stamp σ.ui hl]
      have htm : (Event.apply (Event.send now stamp) σ).timers = [] := by
        simp [Event.apply, handleSend_of_loading now stamp σ.ui hl, ht]
      have hin : (Event.apply (Event.send now stamp) σ).inflight = [] := by
        simp [Event.apply, hi]
      have := ih _ (by rw [hui]; exact hl) htm hin hrest
      rw [hui] at this
      exact this
    | click q now stamp =>
      have hui : (Event.apply (Event.click q now stamp) σ).ui = σ.ui := by
        simp [Event.apply, handleSuggestedQuestion_of_loading q now stamp σ.ui hl]
      have htm : (Event.apply (Event.click q now stamp) σ).timers = [] := by
        simp [Event.apply, handleSuggestedQuestion_of_loading q now stamp σ.ui hl, ht]
      have hin : (Event.apply (Event.click q now stamp) σ).inflight = [] := by
        simp [Event.apply, hi]
      have := ih _ (by rw [hui]; exact hl) htm hin hrest
      rw [hui] at this
      exact this
    | timer c =>
      simp only [Event.enabled, ht] at he
      exact absurd he (List.not_mem_nil c)
    | completion shuffle now stamp c outcome =>
      simp only [Event.enabled, hi] at he
      exact absurd he.1 (List.not_mem_nil c)

/-- C16, the code at the failing input: "hello" is submitted on a fresh screen
and the request is fulfilled with a body that has no `answer` field. The `then`
handler clears the pending marker and throws, the `catch` handler then finds
the marker changed and returns: no message, no notification, and the loading
flag stays set. Nothing is outstanding, so typed submissions and suggestion
clicks are rejected and the flag stays set after every further run of
events. -/
theorem missing_answer_leaves_loading :
    Reachable afterMissingAnswer ∧
    afterMissingAnswer.ui.isLoading = true ∧
    afterMissingAnswer.ui.pendingRequestRef = none ∧
    afterMissingAnswer.timers = [] ∧ afterMissingAnswer.inflight = [] ∧
    afterMissingAnswer.log = [] ∧
    afterMissingAnswer.ui.messages = [welcomeMessage 0 0, userMessage "hello" 1000 1000] ∧
    handleSend 2000 2000 { afterMissingAnswer.ui with inputMessage := "again" } =
      ({ afterMissingAnswer.ui with inputMessage := "again" }, none) ∧
    handleSuggestedQuestion "What is Brahmi script?" 2000 2000 afterMissingAnswer.ui =
      (afterMissingAnswer.ui, none) ∧
    (∀ es : List Event, enabledAll es afterMissingAnswer →
      (runEvents es afterMissingAnswer).ui.isLoading = true) :=
  ⟨afterMissingAnswer_reachable, by decide, by decide, by decide, by decide, by decide,
   by decide, by decide, by decide,
   fun es hen =>
     (loading_without_callbacks_is_stuck es afterMissingAnswer (by decide) (by decide)
       (by decide) hen).1⟩

/-! ## What an event adds to the store -/

theorem handleSend_messages (now stamp : Nat) (s : ChatState) :
    (handleSend now stamp s).1.messages = s.messages ∨
    (handleSend now stamp s).1.messages = s.messages ++ [userMessage s.inputMessage now stamp] := by
  unfold handleSend
  split
  · exact Or.inl rfl
  · split
    · exact Or.inl rfl
    · exact Or.inr rfl

theorem handleSuggestedQuestion_messages (q : String) (now stamp : Nat) (s : ChatState) :
    (handleSuggestedQuestion q now stamp s).1.messages = s.messages ∨
    (handleSuggestedQuestion q now stamp s).1.messages = s.messages ++ [userMessage q now stamp] := by
  cases hl : s.isLoading <;> cases hp : s.pendingRequestRef <;>
    simp [handleSuggestedQuestion, acceptSubmission, hl, hp]

theorem deferredIssue_messages (c : RequestClosure) (s : ChatState) :
    (deferredIssue c s).1.messages = s.messages := by
  unfold deferredIssue
  split <;> rfl

theorem appendUnlessExists_cases (prev : List Message) (b : Message) :
    appendUnlessExists prev b = prev ∨
    (alreadyExists prev b = false ∧ appendUnlessExists prev b = prev ++ [b]) := by
  cases h : alreadyExists prev b with
  | true => left; simp [appendUnlessExists, h]
  | false => right; simp [appendUnlessExists, h]

theorem settle_messages (shuffle : List String → List String) (now stamp : Nat)
    (c : RequestClosure) (outcome : Outcome) (s : ChatState) :
    (settle shuffle now stamp c outcome s).1.messages = s.messages ∨
    ∃ b, b.sender = Sender.bot ∧ alreadyExists s.messages b = false ∧
      (settle shuffle now stamp c outcome s).1.messages = s.messages ++ [b] := by
  cases hcur : notCurrent c s with
  | true => rw [settle_of_notCurrent shuffle now stamp c outcome s hcur]; exact Or.inl rfl
  | false =>
    cases outcome with
    | fulfilled answer =>
      cases answer with
      | none =>
        rw [settle_missing_answer_of_current shuffle now stamp c s hcur]; exact Or.inl rfl
      | some a =>
        rw [settle_fulfilled_of_current shuffle now stamp c a s hcur]
        rcases appendUnlessExists_cases s.messages
          (botMessage shuffle a c.currentInput now stamp) with h | ⟨h1, h2⟩
        · exact Or.inl h
        · exact Or.inr ⟨_, rfl, h1, h2⟩
    | rejected =>
      have hs : settle shuffle now stamp c Outcome.rejected s = catchHandler now stamp c s := rfl
      rw [hs, catchHandler_of_current now stamp c s hcur]
      rcases appendUnlessExists_cases s.messages (errorMessage now stamp) with h | ⟨h1, h2⟩
      · exact Or.inl h
      · exact Or.inr ⟨_, rfl, h1, h2⟩

/-- Every event leaves the store as it is or appends one message to it; an
appended message is a user message or passed the duplicate test. -/
theorem apply_messages (e : Event) (σ : Session) :
    ∃ added : List Message,
      (e.apply σ).ui.messages = σ.ui.messages ++ added ∧ added.length ≤ 1 ∧
      ∀ m ∈ added, m.sender = Sender.user ∨
        (m.sender = Sender.bot ∧ alreadyExists σ.ui.messages m = false) := by
  cases e with
  | change text => exact ⟨[], by simp [Event.apply], by simp, by simp⟩
  | send now stamp =>
    rcases handleSend_messages now stamp σ.ui with h | h
    · exact ⟨[], by simp [Event.apply, h], by simp, by simp⟩
    · exact ⟨[userMessage σ.ui.inputMessage now stamp], by simp [Event.apply, h], by simp,
        by simp [userMessage]⟩
  | click q now stamp =>
    rcases handleSuggestedQuestion_messages q now stamp σ.ui with h | h
    · exact ⟨[], by simp [Event.apply, h], by simp, by simp⟩
    · exact ⟨[userMessage q now stamp], by simp [Event.apply, h], by simp,
        by simp [userMessage]⟩
  | timer c =>
    exact ⟨[], by simp [Event.apply, deferredIssue_messages], by simp, by simp⟩
  | completion shuffle now stamp c outcome =>
    rcases settle_messages shuffle now stamp c outcome σ.ui with h | ⟨b, hb, hex, h⟩
    · exact ⟨[], by simp [Event.apply, h], by simp, by simp⟩
    · exact ⟨[b], by simp [Event.apply, h], by simp, by simp [hb, hex]⟩

/-! ## Message ids -/

theorem afterQuickFollowUp_reachable : Reachable afterQuickFollowUp := by
  unfold afterQuickFollowUp
  apply reachable_runEvents _ _ (Reachable.boot 0 0 (Nat.le_refl 0))
  simp only [enabledAll, Event.enabled]
  exact ⟨by decide, by decide, by decide,
    ⟨by decide, fun l => List.Perm.refl l, by decide, by decide⟩,
    by decide, by decide, trivial⟩

/-- C17, as stated, fails: with the strictly increasing clock readings 0, 1000,
1010 and 1011 the reply created at 1010 ms gets the id 1011, and the question
submitted at 1011 ms gets the id 1011 as well; the reachable store holds two
messages with the same id. -/
theorem quick_follow_up_shares_id :
    Reachable afterQuickFollowUp ∧
    afterQuickFollowUp.ui.messages =
      [welcomeMessage 0 0, userMessage "a" 1000 1000, botMessage id "ok" "a" 1010 1010,
       userMessage "b" 1011 1011] ∧
    (afterQuickFollowUp.ui.messages.map fun m => m.id) = [0, 1000, 1011, 1011] ∧
    ¬ (afterQuickFollowUp.ui.messages.map fun m => m.id).Nodup :=
  ⟨afterQuickFollowUp_reachable, by decide, by decide, by decide⟩

theorem ids_differ_of_not_alreadyExists (prev : List Message) (b : Message)
    (h : alreadyExists prev b = false) : ∀ x ∈ prev, x.id ≠ b.id := by
  intro x hx heq
  have : alreadyExists prev b = true :=
    (alreadyExists_iff prev b).mpr ⟨x, hx, Or.inl heq⟩
  rw [h] at this
  exact Bool.noConfusion this

/-- C17, amended: in every reachable store state, a bot message (a reply or a
synthesized error message) never has the id of a message stored before it, so
whenever two stored messages share an id the later one is a user message; the
id of a user message is the clock reading at its submission and can coincide
with an earlier id. -/
theorem bot_ids_are_fresh (σ : Session) (h : Reachable σ) :
    σ.ui.messages.Pairwise (fun x y => x.id = y.id → y.sender = Sender.user) ∧
    (∀ (pre post : List Message) (m : Message), σ.ui.messages = pre ++ m :: post →
      m.sender = Sender.bot → ∀ x ∈ pre, x.id ≠ m.id) := by
  have inv : σ.ui.messages.Pairwise (fun x y => x.id = y.id → y.sender = Sender.user) := by
    induction h with
    | boot now stamp _ => simp [boot, mount]
    | step e _ _ ih =>
      obtain ⟨added, hmsgs, hlen, hadd⟩ := apply_messages e _
      rw [hmsgs, List.pairwise_append]
      refine ⟨ih, ?_, ?_⟩
      · match added, hlen with
        | [], _ => exact List.Pairwise.nil
        | [m], _ => exact List.pairwise_singleton _ m
      · intro a ha b hb heq
        rcases hadd b hb with hu | ⟨_, hex⟩
        · exact hu
        · exact absurd heq (ids_differ_of_not_alreadyExists _ b hex a ha)
  refine ⟨inv, ?_⟩
  intro pre post m hsplit hbot x hx heq
  rw [hsplit, List.pairwise_append] at inv
  have := inv.2.2 x hx m (List.mem_cons_self m post) heq
  rw [hbot] at this
  exact Sender.noConfusion this

/-- C17, amended, at a concrete input: the store left by a failed first
exchange. -/
theorem bot_ids_are_fresh_witness :
    Reachable afterFirstFailure ∧
    afterFirstFailure.ui.messages.Pairwise (fun x y => x.id = y.id → y.sender = Sender.user) :=
  ⟨afterFirstFailure_reachable, (bot_ids_are_fresh afterFirstFailure afterFirstFailure_reachable).1⟩

/-! ## The store is append-only -/

/-- C18: every controller event (input change, submission, suggestion click,
deferred issuance, and every completion, be it a success, a failure or a stale
one) leaves the message list before it as a prefix of the message list after
it and adds at most one message; the same holds for each handler on every
state. -/
theorem store_append_only (e : Event) (σ : Session) :
    σ.ui.messages <+: (e.apply σ).ui.messages ∧
    (e.apply σ).ui.messages.length ≤ σ.ui.messages.length + 1 ∧
    (∃ added : List Message,
      (e.apply σ).ui.messages = σ.ui.messages ++ added ∧ added.length ≤ 1) ∧
    (∀ (now stamp : Nat) (s : ChatState),
      ∃ added : List Message,
        (handleSend now stamp s).1.messages = s.messages ++ added ∧ added.length ≤ 1) ∧
    (∀ (q : String) (now stamp : Nat) (s : ChatState),
      ∃ added : List Message,
        (handleSuggestedQuestion q now stamp s).1.messages = s.messages ++ added ∧
        added.length ≤ 1) ∧
    (∀ (c : RequestClosure) (s : ChatState), (deferredIssue c s).1.messages = s.messages) ∧
    (∀ (shuffle : List String → List String) (now stamp : Nat) (c : RequestClosure)
        (outcome : Outcome) (s : ChatState),
      ∃ added : List Message,
        (settle shuffle now stamp c outcome s).1.messages = s.messages ++ added ∧
        added.length ≤ 1) := by
  obtain ⟨added, hmsgs, hlen, _⟩ := apply_messages e σ
  refine ⟨⟨added, hmsgs.symm⟩, ?_, ⟨added, hmsgs, hlen⟩, ?_, ?_, deferredIssue_messages, ?_⟩
  · rw [hmsgs, List.length_append]; omega
  · intro now stamp s
    rcases handleSend_messages now stamp s with h | h
    · exact ⟨[], by simp [h], by simp⟩
    · exact ⟨_, h, by simp⟩
  · intro q now stamp s
    rcases handleSuggestedQuestion_messages q now stamp s with h | h
    · exact ⟨[], by simp [h], by simp⟩
    · exact ⟨_, h, by simp⟩
  · intro shuffle now stamp c outcome s
    rcases settle_messages shuffle now stamp c outcome s with h | ⟨b, _, _, h⟩
    · exact ⟨[], by simp [h], by simp⟩
    · exact ⟨[b], h, by simp⟩

/-! ## Request ids -/

theorem handleSend_requestId (now stamp : Nat) (s : ChatState) :
    ((handleSend now stamp s).2 = none ∧ (handleSend now stamp s).1.requestIdRef = s.requestIdRef) ∨
    (∃ c, (handleSend now stamp s).2 = some c ∧ c.currentRequestId = s.requestIdRef + 1 ∧
      (handleSend now stamp s).1.requestIdRef = s.requestIdRef + 1) := by
  unfold handleSend
  split
  · exact Or.inl ⟨rfl, rfl⟩
  · split
    · exact Or.inl ⟨rfl, rfl⟩
    · exact Or.inr ⟨_, rfl, rfl, rfl⟩

theorem handleSuggestedQuestion_requestId (q : String) (now stamp : Nat) (s : ChatState) :
    ((handleSuggestedQuestion q now stamp s).2 = none ∧
      (handleSuggestedQuestion q now stamp s).1.requestIdRef = s.requestIdRef) ∨
    (∃ c, (handleSuggestedQuestion q now stamp s).2 = some c ∧
      c.currentRequestId = s.requestIdRef + 1 ∧
      (handleSuggestedQuestion q now stamp s).1.requestIdRef = s.requestIdRef + 1) := by
  cases hl : s.isLoading <;> cases hp : s.pendingRequestRef <;>
    simp [handleSuggestedQuestion, acceptSubmission, hl, hp]

theorem deferredIssue_requestId (c : RequestClosure) (s : ChatState) :
    (deferredIssue c s).1.requestIdRef = s.requestIdRef := by
  unfold deferredIssue
  split <;> rfl

theorem settle_requestId (shuffle : List String → List String) (now stamp : Nat)
    (c : RequestClosure) (outcome : Outcome) (s : ChatState) :
    (settle shuffle now stamp c outcome s).1.requestIdRef = s.requestIdRef := by
  cases hcur : notCurrent c s with
  | true => rw [settle_of_notCurrent shuffle now stamp c outcome s hcur]
  | false =>
    cases outcome with
    | fulfilled answer =>
      cases answer with
      | none => rw [settle_missing_answer_of_current shuffle now stamp c s hcur]
      | some a => rw [settle_fulfilled_of_current shuffle now stamp c a s hcur]
    | rejected =>
      have hs : settle shuffle now stamp c Outcome.rejected s = catchHandler now stamp c s := rfl
      rw [hs, catchHandler_of_current now stamp c s hcur]

/-- An event that schedules a callback gives it the counter plus one and stores
that value; any other event leaves the counter alone. -/
theorem apply_requestId (e : Event) (σ : Session) :
    (scheduledBy e σ = none ∧ (e.apply σ).ui.requestIdRef = σ.ui.requestIdRef) ∨
    (∃ c, scheduledBy e σ = some c ∧ c.currentRequestId = σ.ui.requestIdRef + 1 ∧
      (e.apply σ).ui.requestIdRef = σ.ui.requestIdRef + 1) := by
  cases e with
  | change text => exact Or.inl ⟨rfl, rfl⟩
  | send now stamp => exact handleSend_requestId now stamp σ.ui
  | click q now stamp => exact handleSuggestedQuestion_requestId q now stamp σ.ui
  | timer c => exact Or.inl ⟨rfl, deferredIssue_requestId c σ.ui⟩
  | completion shuffle now stamp c outcome =>
    exact Or.inl ⟨rfl, settle_requestId shuffle now stamp c outcome σ.ui⟩

theorem allocatedIds_increasing (es : List Event) (σ : Session) :
    (allocatedIds es σ).Pairwise (fun a b => a < b) ∧
    ∀ n ∈ allocatedIds es σ, σ.ui.requestIdRef < n := by
  induction es generalizing σ with
  | nil => simp [allocatedIds]
  | cons e es ih =>
    obtain ⟨hpw, hgt⟩ := ih (e.apply σ)
    rcases apply_requestId e σ with ⟨hnone, hreq⟩ | ⟨c, hsome, hid, hreq⟩
    · simp only [allocatedIds, hnone, Option.map_none', Option.toList_none, List.nil_append]
      refine ⟨hpw, ?_⟩
      intro n hn
      have := hgt n hn
      omega
    · simp only [allocatedIds, hsome, Option.map_some', Option.toList_some,
        List.singleton_append]
      refine ⟨List.pairwise_cons.mpr ⟨?_, hpw⟩, ?_⟩
      · intro n hn
        have := hgt n hn
        omega
      · intro n hn
        rcases List.mem_cons.mp hn with h | h
        · omega
        · have := hgt n h
          omega

/-- C19: the counter starts at 0; an admitted submission or suggestion click
allocates the previous counter value plus one and stores it; a rejected
submission, the deferred issuance and every completion (success, failure or
stale) leave the counter unchanged; hence along every run of events the
allocated ids are strictly increasing, so pairwise distinct, and all above the
counter value the run started from. -/
theorem request_ids_strictly_increasing :
    initialState.requestIdRef = 0 ∧
    (∀ now stamp : Nat, (boot now stamp).ui.requestIdRef = 0) ∧
    (∀ (e : Submission) (s : ChatState),
      ((submit e s).2 = none ∧ (submit e s).1.requestIdRef = s.requestIdRef) ∨
      (∃ c, (submit e s).2 = some c ∧ c.currentRequestId = s.requestIdRef + 1 ∧
        (submit e s).1.requestIdRef = s.requestIdRef + 1)) ∧
    (∀ (c : RequestClosure) (s : ChatState),
      (deferredIssue c s).1.requestIdRef = s.requestIdRef) ∧
    (∀ (shuffle : List String → List String) (now stamp : Nat) (c : RequestClosure)
        (outcome : Outcome) (s : ChatState),
      (settle shuffle now stamp c outcome s).1.requestIdRef = s.requestIdRef) ∧
    (∀ (es : List Event) (σ : Session),
      (allocatedIds es σ).Pairwise (fun a b => a < b) ∧ (allocatedIds es σ).Nodup ∧
      ∀ n ∈ allocatedIds es σ, σ.ui.requestIdRef < n) := by
  refine ⟨rfl, fun _ _ => rfl, ?_, deferredIssue_requestId, settle_requestId, ?_⟩
  · intro e s
    cases e with
    | typed now stamp => exact handleSend_requestId now stamp s
    | suggestion q now stamp => exact handleSuggestedQuestion_requestId q now stamp s
  · intro es σ
    obtain ⟨hpw, hgt⟩ := allocatedIds_increasing es σ
    refine ⟨hpw, ?_, hgt⟩
    exact hpw.imp (fun h => Nat.ne_of_lt h)

/-! ## The initial state -/

/-- C20: right after the mount effect the store holds exactly one message, the
bot welcome message with the fixed three suggestions, and the controller is
idle: loading flag clear, no pending request, counter 0, empty input buffer,
nothing scheduled and nothing sent. -/
theorem initial_state (now stamp : Nat) :
    (boot now stamp).ui =
      { messages := [welcomeMessage now stamp], inputMessage := "", isLoading := false,
        pendingRequestRef := none, requestIdRef := 0 } ∧
    (boot now stamp).ui.messages.length = 1 ∧
    (welcomeMessage now stamp).sender = Sender.bot ∧
    (welcomeMessage now stamp).suggestedQuestions =
      some ["What is Brahmi script?", "How does Tamil OCR work?",
            "What are the different types of scripts?"] ∧
    (welcomeMessage now stamp).isError = false ∧
    Idle (boot now stamp).ui ∧
    (boot now stamp).ui.requestIdRef = 0 ∧
    (boot now stamp).ui.inputMessage = "" ∧
    (boot now stamp).timers = [] ∧ (boot now stamp).inflight = [] ∧
    (boot now stamp).sent = [] ∧
    initialState.messages = [] :=
  ⟨rfl, rfl, rfl, rfl, rfl, ⟨rfl, rfl⟩, rfl, rfl, rfl, rfl, rfl, rfl⟩

/-! ## The shape of stored messages -/

theorem settle_added_shape (shuffle : List String → List String) (now stamp : Nat)
    (c : RequestClosure) (outcome : Outcome) (s : ChatState) :
    (settle shuffle now stamp c outcome s).1.messages = s.messages ∨
    (∃ a, (settle shuffle now stamp c outcome s).1.messages =
      s.messages ++ [botMessage shuffle a c.currentInput now stamp]) ∨
    (settle shuffle now stamp c outcome s).1.messages = s.messages ++ [errorMessage now stamp] := by
  cases hcur : notCurrent c s with
  | true => rw [settle_of_notCurrent shuffle now stamp c outcome s hcur]; exact Or.inl rfl
  | false =>
    cases outcome with
    | fulfilled answer =>
      cases answer with
      | none =>
        rw [settle_missing_answer_of_current shuffle now stamp c s hcur]; exact Or.inl rfl
      | some a =>
        rw [settle_fulfilled_of_current shuffle now stamp c a s hcur]
        rcases appendUnlessExists_cases s.messages
          (botMessage shuffle a c.currentInput now stamp) with h | ⟨_, h2⟩
        · exact Or.inl h
        · exact Or.inr (Or.inl ⟨a, h2⟩)
    | rejected =>
      have hs : settle shuffle now stamp c Outcome.rejected s = catchHandler now stamp c s := rfl
      rw [hs, catchHandler_of_current now stamp c s hcur]
      rcases appendUnlessExists_cases s.messages (errorMessage now stamp) with h | ⟨_, h2⟩
      · exact Or.inl h
      · exact Or.inr (Or.inr h2)

/-- Every event leaves the store as it is or appends one message to it, which
is a user message, an error message, or a bot message built with the sort
outcome of the event. -/
theorem apply_added_shape (e : Event) (σ : Session) :
    ∃ added : List Message,
      (e.apply σ).ui.messages = σ.ui.messages ++ added ∧
      ∀ m ∈ added,
        (∃ t n st, m = userMessage t n st) ∨ (∃ n st, m = errorMessage n st) ∨
        (∃ shuffle a q n st, m = botMessage shuffle a q n st ∧
          (e.enabled σ → ∀ l, List.Perm (shuffle l) l)) := by
  cases e with
  | change text => exact ⟨[], by simp [Event.apply], by simp⟩
  | send now stamp =>
    rcases handleSend_messages now stamp σ.ui with h | h
    · exact ⟨[], by simp [Event.apply, h], by simp⟩
    · refine ⟨[userMessage σ.ui.inputMessage now stamp], by simp [Event.apply, h], ?_⟩
      intro m hm
      rw [List.mem_singleton] at hm
      exact Or.inl ⟨_, _, _, hm⟩
  | click q now stamp =>
    rcases handleSuggestedQuestion_messages q now stamp σ.ui with h | h
    · exact ⟨[], by simp [Event.apply, h], by simp⟩
    · refine ⟨[userMessage q now stamp], by simp [Event.apply, h], ?_⟩
      intro m hm
      rw [List.mem_singleton] at hm
      exact Or.inl ⟨_, _, _, hm⟩
  | timer c =>
    exact ⟨[], by simp [Event.apply, deferredIssue_messages], by simp⟩
  | completion shuffle now stamp c outcome =>
    rcases settle_added_shape shuffle now stamp c outcome σ.ui with h | ⟨a, h⟩ | h
    · exact ⟨[], by simp [Event.apply, h], by simp⟩
    · refine ⟨[botMessage shuffle a c.currentInput now stamp], by simp [Event.apply, h], ?_⟩
      intro m hm
      rw [List.mem_singleton] at hm
      exact Or.inr (Or.inr ⟨shuffle, a, c.currentInput, now, stamp, hm, fun he => he.2.1⟩)
    · refine ⟨[errorMessage now stamp], by simp [Event.apply, h], ?_⟩
      intro m hm
      rw [List.mem_singleton] at hm
      exact Or.inr (Or.inl ⟨_, _, hm⟩)

/-- C21: in every reachable store state each message carries at most 3
suggested questions, and only bot messages that are not error messages carry
any: a user message has none and a synthesized error message has none. -/
theorem suggestions_only_on_bot_messages (σ : Session) (h : Reachable σ) :
    ∀ m ∈ σ.ui.messages,
      (∀ l, m.suggestedQuestions = some l → l.length ≤ 3) ∧
      (m.sender = Sender.user → m.suggestedQuestions = none) ∧
      (m.isError = true → m.suggestedQuestions = none) ∧
      (m.suggestedQuestions ≠ none → m.sender = Sender.bot) := by
  induction h with
  | boot now stamp _ =>
    intro m hm
    have : m = welcomeMessage now stamp := by simpa [boot, mount] using hm
    subst this
    refine ⟨?_, ?_, ?_, ?_⟩
    · intro l hl
      simp only [welcomeMessage, Option.some.injEq] at hl
      rw [← hl]; decide
    · intro hs; simp [welcomeMessage] at hs
    · intro he; simp [welcomeMessage] at he
    · intro _; rfl
  | step e _ _ ih =>
    obtain ⟨added, hmsgs, hshape⟩ := apply_added_shape e _
    intro m hm
    rw [hmsgs, List.mem_append] at hm
    rcases hm with hm | hm
    · exact ih m hm
    · rcases hshape m hm with ⟨t, n, st, rfl⟩ | ⟨n, st, rfl⟩ | ⟨sh, a, q, n, st, rfl, _⟩
      · exact ⟨by simp [userMessage], fun _ => rfl, fun _ => rfl, by simp [userMessage]⟩
      · exact ⟨by simp [errorMessage], fun _ => rfl, fun _ => rfl, by simp [errorMessage]⟩
      · refine ⟨?_, ?_, ?_, fun _ => rfl⟩
        · intro l hl
          simp only [botMessage, Option.some.injEq] at hl
          rw [← hl]
          simp [generateSuggestedQuestions, List.length_take]
        · intro hs; simp [botMessage] at hs
        · intro he; simp [botMessage] at he

/-- C21 at a concrete input: the store left by a failed first exchange. -/
theorem suggestions_only_on_bot_messages_witness :
    Reachable afterFirstFailure ∧
    ∀ m ∈ afterFirstFailure.ui.messages,
      (∀ l, m.suggestedQuestions = some l → l.length ≤ 3) ∧
      (m.sender = Sender.user → m.suggestedQuestions = none) ∧
      (m.isError = true → m.suggestedQuestions = none) ∧
      (m.suggestedQuestions ≠ none → m.sender = Sender.bot) :=
  ⟨afterFirstFailure_reachable,
   suggestions_only_on_bot_messages afterFirstFailure afterFirstFailure_reachable⟩

/-! ## The failure notification -/

/-- C22: when the latest request fails (the pending marker and the counter both
point at it), the failure is logged and exactly one notification with the text
"Failed to get response from chatbot" is emitted; when a failure or a success
arrives for a superseded request id, nothing is logged and no notification is
emitted; a success of the latest request emits nothing either. -/
theorem failure_notified_once (shuffle : List String → List String) (now stamp : Nat)
    (c : RequestClosure) (s : ChatState)
    (hp : s.pendingRequestRef = some c.currentRequestId)
    (hid : c.currentRequestId = s.requestIdRef) :
    (settle shuffle now stamp c Outcome.rejected s).2 =
      [Effect.consoleError, Effect.toastError "Failed to get response from chatbot"] ∧
    ((settle shuffle now stamp c Outcome.rejected s).2.filter fun x =>
        x == Effect.toastError "Failed to get response from chatbot").length = 1 ∧
    (∀ text, Effect.toastError text ∈ (settle shuffle now stamp c Outcome.rejected s).2 →
      text = "Failed to get response from chatbot") ∧
    (∀ answer, (settle shuffle now stamp c (Outcome.fulfilled answer) s).2 = []) ∧
    (∀ (old : RequestClosure) (outcome : Outcome), old.currentRequestId < s.requestIdRef →
      (settle shuffle now stamp old outcome s).2 = []) := by
  have hcur := notCurrent_of_current c s hp hid
  have hs : settle shuffle now stamp c Outcome.rejected s = catchHandler now stamp c s := rfl
  rw [hs, catchHandler_of_current now stamp c s hcur]
  refine ⟨rfl, ?_, ?_, ?_, ?_⟩
  · show ([Effect.consoleError, Effect.toastError toastText].filter fun x =>
        x == Effect.toastError "Failed to get response from chatbot").length = 1
    decide
  · intro text ht
    simp [toastText] at ht
    exact ht
  · intro answer
    cases answer with
    | none => rw [settle_missing_answer_of_current shuffle now stamp c s hcur]
    | some a => rw [settle_fulfilled_of_current shuffle now stamp c a s hcur]
  · intro old outcome hlt
    rw [settle_of_notCurrent shuffle now stamp old outcome s (notCurrent_of_lt old s hlt)]

/-- C22 at a concrete input: the first request fails while it is the latest
one. -/
theorem failure_notified_once_witness :
    ({ messages := [welcomeMessage 0 0, userMessage "a" 1000 1000], inputMessage := "",
       isLoading := true, pendingRequestRef := some 1, requestIdRef := 1 } :
        ChatState).pendingRequestRef = some (firstClosure "a").currentRequestId ∧
    (settle id 1010 1010 (firstClosure "a") Outcome.rejected
        { messages := [welcomeMessage 0 0, userMessage "a" 1000 1000], inputMessage := "",
          isLoading := true, pendingRequestRef := some 1, requestIdRef := 1 }).2 =
      [Effect.consoleError, Effect.toastError "Failed to get response from chatbot"] :=
  ⟨rfl,
   (failure_notified_once id 1010 1010 (firstClosure "a")
      { messages := [welcomeMessage 0 0, userMessage "a" 1000 1000], inputMessage := "",
        isLoading := true, pendingRequestRef := some 1, requestIdRef := 1 } rfl rfl).1⟩

/-! ## The deferred issuance -/

/-- C24: when the deferred callback of request `n` runs while the counter
differs from `n`, no request is sent and the whole state (pending marker,
message list and loading flag included) is unchanged; when `n` is still the
counter, the body with the captured question and history is sent and the
pending marker is set to that request, nothing else changes; so a request is
sent exactly when `n` is the latest id. -/
theorem superseded_request_not_sent (c : RequestClosure) (s : ChatState) :
    (c.currentRequestId ≠ s.requestIdRef → deferredIssue c s = (s, none)) ∧
    (c.currentRequestId = s.requestIdRef →
      deferredIssue c s =
        ({ s with pendingRequestRef := some c.currentRequestId },
         some (chatWithBotBody c.currentInput c.conversationHistory))) ∧
    ((deferredIssue c s).2.isSome = true ↔ c.currentRequestId = s.requestIdRef) ∧
    ((deferredIssue c s).1.pendingRequestRef ≠ s.pendingRequestRef →
      c.currentRequestId = s.requestIdRef) ∧
    (deferredIssue c s).1.messages = s.messages ∧
    (deferredIssue c s).1.isLoading = s.isLoading ∧
    (deferredIssue c s).1.requestIdRef = s.requestIdRef ∧
    (deferredIssue c s).1.inputMessage = s.inputMessage := by
  by_cases h : c.currentRequestId = s.requestIdRef
  · simp [deferredIssue, h, chatWithBotBody]
  · simp [deferredIssue, h]

/-- C24 at a concrete input: the callback of request 1 runs after request 2 was
allocated, and the callback of request 2 runs while it is the latest. -/
theorem superseded_request_not_sent_witness :
    deferredIssue (firstClosure "a")
        { messages := [welcomeMessage 0 0], inputMessage := "", isLoading := true,
          pendingRequestRef := none, requestIdRef := 2 } =
      ({ messages := [welcomeMessage 0 0], inputMessage := "", isLoading := true,
         pendingRequestRef := none, requestIdRef := 2 }, none) ∧
    (deferredIssue (secondClosure "a" "ok" "b")
        { messages := [welcomeMessage 0 0], inputMessage := "", isLoading := true,
          pendingRequestRef := none, requestIdRef := 2 }).1.pendingRequestRef = some 2 :=
  ⟨(superseded_request_not_sent (firstClosure "a")
      { messages := [welcomeMessage 0 0], inputMessage := "", isLoading := true,
        pendingRequestRef := none, requestIdRef := 2 }).1 (by decide),
   by decide⟩

/-! ## User messages in the history -/

/-- C27: for every store, every user message appears in the outbound history
with role "user" and its own text, whatever that text contains; the history is
the projection of a sublist of the store in store order, the user messages are
all in it, and a message left out is a bot message whose text contains the
welcome literal. -/
theorem user_messages_never_filtered (msgs : List Message) :
    (∀ m ∈ msgs, m.sender = Sender.user →
      ({ role := "user", text := m.text, sender := Sender.user } : HistoryEntry) ∈
        conversationHistory msgs) ∧
    (∃ kept : List Message, kept.Sublist msgs ∧ conversationHistory msgs = kept.map toEntry ∧
      (∀ m ∈ msgs, m ∉ kept →
        m.sender = Sender.bot ∧ includes m.text welcomeSentinel = true)) ∧
    ((msgs.filter fun m => m.sender == Sender.user).map toEntry).Sublist
      (conversationHistory msgs) ∧
    (∀ (text : String) (now stamp : Nat), includes text welcomeSentinel = true →
      keptInHistory (userMessage text now stamp) = true) := by
  refine ⟨?_, ⟨msgs.filter keptInHistory, List.filter_sublist msgs, rfl, ?_⟩, ?_, ?_⟩
  · intro m hm hs
    have hk : keptInHistory m = true := by simp [keptInHistory, hs]
    have : toEntry m ∈ conversationHistory msgs :=
      List.mem_map.mpr ⟨m, List.mem_filter.mpr ⟨hm, hk⟩, rfl⟩
    simpa [toEntry, hs] using this
  · intro m hm hnot
    have hk : keptInHistory m = false := by
      cases h : keptInHistory m with
      | false => rfl
      | true => exact absurd (List.mem_filter.mpr ⟨hm, h⟩) hnot
    cases hs : m.sender with
    | user => simp [keptInHistory, hs] at hk
    | bot => exact ⟨rfl, by simpa [keptInHistory, hs] using hk⟩
  · apply List.Sublist.map
    have hsub : ∀ m : Message, (m.sender == Sender.user) = true → keptInHistory m = true := by
      intro m hm
      have : m.sender = Sender.user := by simpa using hm
      simp [keptInHistory, this]
    exact List.monotone_filter_right msgs hsub
  · intro text now stamp _
    exact keptInHistory_userMessage text now stamp

/-! ## The structure of the candidate pool -/

theorem filter_four {α : Type} (p : α → Bool) (a b c d : α) :
    [a, b, c, d].filter p =
      (if p a then [a] else []) ++ (if p b then [b] else []) ++ (if p c then [c] else []) ++
        (if p d then [d] else []) := by
  cases ha : p a <;> cases hb : p b <;> cases hc : p c <;> cases hd : p d <;>
    simp [List.filter, ha, hb, hc, hd]

theorem matchedTopics_eq (answer userQuestion : String) :
    matchedTopics answer userQuestion =
      (if mentions answer userQuestion "brahmi" then ["brahmi"] else []) ++
      (if mentions answer userQuestion "ocr" then ["ocr"] else []) ++
      (if mentions answer userQuestion "tamil" then ["tamil"] else []) ++
      (if mentions answer userQuestion "script" then ["script"] else []) :=
  filter_four (fun k => includes (toLowerCase answer) k || includes (toLowerCase userQuestion) k)
    "brahmi" "ocr" "tamil" "script"

theorem mentions_of_matchedTopics_eq (a q a2 q2 : String)
    (h : matchedTopics a2 q2 = matchedTopics a q) (k : String) (hk : k ∈ topicKeywords) :
    mentions a2 q2 k = mentions a q k := by
  have h1 : ∀ x y : String, k ∈ matchedTopics x y ↔ mentions x y k = true := by
    intro x y
    simp [matchedTopics, mentions, hk]
  have := h1 a2 q2
  rw [h, h1 a q] at this
  cases h2 : mentions a2 q2 k <;> cases h3 : mentions a q k <;> simp_all

/-- C23: for every answer and question the pool built before the sort is the
pool the specification describes: the candidate lists, in the order brahmi,
ocr, tamil, script, of exactly the topics whose keyword occurs in the
lower-cased answer or the lower-cased question, and the generic list when no
keyword occurs; it is the generic list if and only if no keyword occurs; its
size is 3 times the number of matched topics, 3 when there is none; and two
inputs with the same matched topics have the same pool. -/
theorem pool_structure (answer userQuestion : String) :
    suggestions answer userQuestion = poolBySpec answer userQuestion ∧
    suggestions answer userQuestion =
      (if (matchedTopics answer userQuestion).isEmpty then genericQuestions
       else
        (if "brahmi" ∈ matchedTopics answer userQuestion then brahmiQuestions else []) ++
        (if "ocr" ∈ matchedTopics answer userQuestion then ocrQuestions else []) ++
        (if "tamil" ∈ matchedTopics answer userQuestion then tamilQuestions else []) ++
        (if "script" ∈ matchedTopics answer userQuestion then scriptQuestions else [])) ∧
    (suggestions answer userQuestion = genericQuestions ↔
      matchedTopics answer userQuestion = []) ∧
    (suggestions answer userQuestion).length =
      3 * max 1 (matchedTopics answer userQuestion).length ∧
    (∀ k, k ∈ matchedTopics answer userQuestion ↔
      k ∈ topicKeywords ∧
        (includes (toLowerCase answer) k = true ∨ includes (toLowerCase userQuestion) k = true)) ∧
    (∀ a2 q2 : String, matchedTopics a2 q2 = matchedTopics answer userQuestion →
      suggestions a2 q2 = suggestions answer userQuestion) := by
  refine ⟨?_, ?_, ?_, ?_, ?_, ?_⟩
  · rw [suggestions_eq_poolOf, poolBySpec, matchedTopics_eq]
    cases mentions answer userQuestion "brahmi" <;> cases mentions answer userQuestion "ocr" <;>
    cases mentions answer userQuestion "tamil" <;> cases mentions answer userQuestion "script" <;>
    decide
  · rw [suggestions_eq_poolOf, matchedTopics_eq]
    cases mentions answer userQuestion "brahmi" <;> cases mentions answer userQuestion "ocr" <;>
    cases mentions answer userQuestion "tamil" <;> cases mentions answer userQuestion "script" <;>
    decide
  · rw [suggestions_eq_poolOf, matchedTopics_eq]
    cases mentions answer userQuestion "brahmi" <;> cases mentions answer userQuestion "ocr" <;>
    cases mentions answer userQuestion "tamil" <;> cases mentions answer userQuestion "script" <;>
    decide
  · rw [suggestions_eq_poolOf, matchedTopics_eq]
    cases mentions answer userQuestion "brahmi" <;> cases mentions answer userQuestion "ocr" <;>
    cases mentions answer userQuestion "tamil" <;> cases mentions answer userQuestion "script" <;>
    decide
  · intro k
    simp [matchedTopics]
  · intro a2 q2 h
    rw [suggestions_eq_poolOf, suggestions_eq_poolOf,
      mentions_of_matchedTopics_eq answer userQuestion a2 q2 h "brahmi" (by decide),
      mentions_of_matchedTopics_eq answer userQuestion a2 q2 h "ocr" (by decide),
      mentions_of_matchedTopics_eq answer userQuestion a2 q2 h "tamil" (by decide),
      mentions_of_matchedTopics_eq answer userQuestion a2 q2 h "script" (by decide)]

/-! ## Symmetry and letter case -/

theorem isAlpha_toNat_le (x : Char) (h : x.isAlpha = true) : x.toNat ≤ 122 := by
  simp only [Char.isAlpha, Char.isUpper, Char.isLower, Bool.or_eq_true, Bool.and_eq_true,
    decide_eq_true_eq] at h
  have h1 : ∀ a b : UInt32, a ≤ b → a.toNat ≤ b.toNat := fun a b hab => hab
  have e90 : (90 : UInt32).toNat = 90 := rfl
  have e122 : (122 : UInt32).toNat = 122 := rfl
  rcases h with ⟨_, h⟩ | ⟨_, h⟩
  · have := h1 _ _ h
    rw [e90] at this
    show x.val.toNat ≤ 122
    omega
  · have := h1 _ _ h
    rw [e122] at this
    exact this

theorem lowerChar_of_isAlpha (x : Char) (h : x.isAlpha = true) : lowerChar x = [x.toLower] := by
  have hle := isAlpha_toNat_le x h
  have h1 : (x.toNat == 0x130) = false := by
    apply beq_false_of_ne; omega
  have h2 : (x.toNat == 0x212A) = false := by
    apply beq_false_of_ne; omega
  simp [lowerChar, h1, h2]

theorem lowerChar_of_sameUpToCase (x y : Char) (h : sameUpToCase x y = true) :
    lowerChar x = lowerChar y := by
  simp only [sameUpToCase, Bool.or_eq_true, Bool.and_eq_true, beq_iff_eq] at h
  rcases h with h | ⟨⟨hx, hy⟩, hxy⟩
  · rw [h]
  · rw [lowerChar_of_isAlpha x hx, lowerChar_of_isAlpha y hy, hxy]

theorem flatMap_lowerChar_of_zip (l1 l2 : List Char) (hlen : l1.length = l2.length)
    (h : (l1.zip l2).all (fun p => sameUpToCase p.1 p.2) = true) :
    l1.flatMap lowerChar = l2.flatMap lowerChar := by
  induction l1 generalizing l2 with
  | nil =>
    cases l2 with
    | nil => rfl
    | cons y ys => simp at hlen
  | cons x xs ih =>
    cases l2 with
    | nil => simp at hlen
    | cons y ys =>
      simp only [List.zip_cons_cons, List.all_cons, Bool.and_eq_true] at h
      simp only [List.length_cons, Nat.add_right_cancel_iff] at hlen
      simp only [List.flatMap_cons, lowerChar_of_sameUpToCase x y h.1, ih ys hlen h.2]

theorem toLowerCase_of_differOnlyInCase (a b : String) (h : differOnlyInCase a b = true) :
    toLowerCase a = toLowerCase b := by
  simp only [differOnlyInCase, Bool.and_eq_true, beq_iff_eq] at h
  simp only [toLowerCase, flatMap_lowerChar_of_zip a.data b.data h.1 h.2]

/-- C29: for every pair of texts the pool built for (a, q) equals the pool built
for (q, a), and it equals the pool built for any a2 and q2 that differ from a
and q only in the case of ASCII letters. -/
theorem pool_symmetric_and_case_insensitive (a q a2 q2 : String)
    (ha : differOnlyInCase a a2 = true) (hq : differOnlyInCase q q2 = true) :
    suggestions a q = suggestions q a ∧
    suggestions a2 q2 = suggestions a q ∧
    suggestions q2 a2 = suggestions a q ∧
    (∀ k, mentions a2 q2 k = mentions a q k) := by
  have hsym : ∀ x y k : String, mentions x y k = mentions y x k := by
    intro x y k
    simp [mentions, Bool.or_comm]
  have hcase : ∀ k : String, mentions a2 q2 k = mentions a q k := by
    intro k
    simp only [mentions, toLowerCase_of_differOnlyInCase a a2 ha,
      toLowerCase_of_differOnlyInCase q q2 hq]
  refine ⟨?_, ?_, ?_, hcase⟩
  · simp only [suggestions_eq_poolOf, hsym a q]
  · simp only [suggestions_eq_poolOf, hcase]
  · simp only [suggestions_eq_poolOf, hsym q2 a2, hcase]

/-- C29 at a concrete input: an answer in capitals and its mixed-case form. -/
theorem pool_symmetric_and_case_insensitive_witness :
    differOnlyInCase "Brahmi and OCR" "BRAHMI and ocr" = true ∧
    differOnlyInCase "hello" "Hello" = true ∧
    suggestions "BRAHMI and ocr" "Hello" = suggestions "Brahmi and OCR" "hello" ∧
    suggestions "Brahmi and OCR" "hello" = brahmiQuestions ++ ocrQuestions :=
  ⟨by decide, by decide,
   (pool_symmetric_and_case_insensitive "Brahmi and OCR" "hello" "BRAHMI and ocr" "Hello"
     (by decide) (by decide)).2.1,
   by decide⟩

/-! ## The pending marker implies the loading flag -/

theorem handleSend_cases (now stamp : Nat) (s : ChatState) :
    handleSend now stamp s = (s, none) ∨
    (s.isLoading = false ∧ s.pendingRequestRef = none ∧
      handleSend now stamp s = acceptSubmission s.inputMessage now stamp s) := by
  unfold handleSend
  split
  · exact Or.inl rfl
  · rename_i h
    split
    · exact Or.inl rfl
    · rename_i hp
      right
      refine ⟨?_, ?_, rfl⟩
      · cases hl : s.isLoading with
        | false => rfl
        | true => simp [hl] at h
      · cases hpr : s.pendingRequestRef with
        | none => rfl
        | some n => simp [hpr] at hp

theorem handleSuggestedQuestion_cases (q : String) (now stamp : Nat) (s : ChatState) :
    handleSuggestedQuestion q now stamp s = (s, none) ∨
    handleSuggestedQuestion q now stamp s = ({ s with inputMessage := q }, none) ∨
    (s.isLoading = false ∧ s.pendingRequestRef = none ∧
      handleSuggestedQuestion q now stamp s =
        acceptSubmission q now stamp { s with inputMessage := q }) := by
  cases hl : s.isLoading <;> cases hp : s.pendingRequestRef <;>
    simp [handleSuggestedQuestion, hl, hp]

theorem settle_cases (shuffle : List String → List String) (now stamp : Nat)
    (c : RequestClosure) (outcome : Outcome) (s : ChatState) :
    settle shuffle now stamp c outcome s = (s, []) ∨
    (s.pendingRequestRef = some c.currentRequestId ∧ c.currentRequestId = s.requestIdRef ∧
      (settle shuffle now stamp c outcome s).1.pendingRequestRef = none ∧
      (settle shuffle now stamp c outcome s).1.requestIdRef = s.requestIdRef) := by
  cases hcur : notCurrent c s with
  | true => exact Or.inl (settle_of_notCurrent shuffle now stamp c outcome s hcur)
  | false =>
    right
    have hh : s.pendingRequestRef = some c.currentRequestId ∧
        c.currentRequestId = s.requestIdRef := by
      simpa [notCurrent] using hcur
    refine ⟨hh.1, hh.2, ?_, settle_requestId shuffle now stamp c outcome s⟩
    cases outcome with
    | fulfilled answer =>
      cases answer with
      | none => rw [settle_missing_answer_of_current shuffle now stamp c s hcur]
      | some a => rw [settle_fulfilled_of_current shuffle now stamp c a s hcur]
    | rejected =>
      have hs : settle shuffle now stamp c Outcome.rejected s = catchHandler now stamp c s := rfl
      rw [hs, catchHandler_of_current now stamp c s hcur]

theorem coherent_boot (now stamp : Nat) : Coherent (boot now stamp) := by
  refine ⟨?_, ?_, ?_⟩
  · intro n hn
    simp [boot, mount, initialState] at hn
  · intro c hc
    simp [boot] at hc
  · simp [boot]

theorem coherent_accept (σ : Session) (h : Coherent σ) (text : String) (now stamp : Nat)
    (s0 : ChatState)
    (hp : s0.pendingRequestRef = σ.ui.pendingRequestRef)
    (hr : s0.requestIdRef = σ.ui.requestIdRef) (hnp : σ.ui.pendingRequestRef = none)
    (clock : Nat) :
    Coherent { σ with ui := (acceptSubmission text now stamp s0).1,
                      timers := σ.timers ++ (acceptSubmission text now stamp s0).2.toList,
                      clock := clock } := by
  obtain ⟨_, h2, h3⟩ := h
  refine ⟨?_, ?_, ?_⟩
  · intro n hn
    simp [acceptSubmission, hp, hnp] at hn
  · intro c hc
    simp only [acceptSubmission, Option.toList_some, List.mem_append, List.mem_singleton] at hc ⊢
    rcases hc with hc | hc
    · have := (h2 c hc).1
      exact ⟨by omega, fun _ => trivial⟩
    · subst hc
      exact ⟨by simp, fun _ => trivial⟩
  · simp only [acceptSubmission, Option.toList_some, List.map_append, List.map_cons,
      List.map_nil]
    rw [List.nodup_append]
    refine ⟨h3, List.nodup_singleton _, ?_⟩
    intro a ha hb
    rw [List.mem_singleton] at hb
    obtain ⟨c, hc, rfl⟩ := List.mem_map.mp ha
    have := (h2 c hc).1
    omega

theorem erase_ids_differ (l : List RequestClosure) (c : RequestClosure)
    (hnd : (l.map fun c => c.currentRequestId).Nodup) (hc : c ∈ l) :
    ∀ d ∈ l.erase c, d.currentRequestId ≠ c.currentRequestId := by
  intro d hd heq
  have hl : l.Nodup := List.Nodup.of_map _ hnd
  have hmem := (List.Nodup.mem_erase_iff hl).mp hd
  exact hmem.1 (List.inj_on_of_nodup_map hnd hmem.2 hc heq)

theorem coherent_erase_timer (σ : Session) (h : Coherent σ) (c : RequestClosure)
    (inflight : List RequestClosure) (sent : List ChatRequest) :
    Coherent { σ with timers := σ.timers.erase c, inflight := inflight, sent := sent } := by
  obtain ⟨h1, h2, h3⟩ := h
  refine ⟨?_, ?_, ?_⟩
  · intro n hn
    obtain ⟨hl, ht⟩ := h1 n hn
    exact ⟨hl, fun d hd => ht d (List.mem_of_mem_erase hd)⟩
  · intro d hd
    exact h2 d (List.mem_of_mem_erase hd)
  · exact List.Nodup.sublist ((List.erase_sublist c σ.timers).map _) h3

/-- Every reachable session is coherent. -/
theorem reachable_coherent (σ : Session) (h : Reachable σ) : Coherent σ := by
  induction h with
  | boot now stamp _ => exact coherent_boot now stamp
  | @step σ e _ he ih =>
    cases e with
    | change text => exact ih
    | send now stamp =>
      rcases handleSend_cases now stamp σ.ui with hs | ⟨_, hp, hs⟩
      · simp only [Event.apply, hs, Option.toList_none, List.append_nil]
        exact ih
      · simp only [Event.apply, hs]
        exact coherent_accept σ ih _ now stamp σ.ui rfl rfl hp stamp
    | click q now stamp =>
      rcases handleSuggestedQuestion_cases q now stamp σ.ui with hs | hs | ⟨_, hp, hs⟩
      · simp only [Event.apply, hs, Option.toList_none, List.append_nil]
        exact ih
      · simp only [Event.apply, hs, Option.toList_none, List.append_nil]
        exact ih
      · simp only [Event.apply, hs]
        exact coherent_accept σ ih q now stamp { σ.ui with inputMessage := q } rfl rfl hp stamp
    | timer c =>
      have hc : c ∈ σ.timers := he
      by_cases hid : c.currentRequestId = σ.ui.requestIdRef
      · have hd : deferredIssue c σ.ui =
            ({ σ.ui with pendingRequestRef := some c.currentRequestId },
             some { message := c.currentInput, conversation_history := c.conversationHistory }) := by
          simp [deferredIssue, hid]
        simp only [Event.apply, hd]
        obtain ⟨_, h2, h3⟩ := ih
        refine ⟨?_, ?_, ?_⟩
        · intro n _
          refine ⟨(h2 c hc).2 hid, ?_⟩
          intro d hd2
          have := erase_ids_differ σ.timers c h3 hc d hd2
          simpa [hid] using this
        · intro d hd2
          exact h2 d (List.mem_of_mem_erase hd2)
        · exact List.Nodup.sublist ((List.erase_sublist c σ.timers).map _) h3
      · have hd : deferredIssue c σ.ui = (σ.ui, none) := by
          simp [deferredIssue, hid]
        simp only [Event.apply, hd]
        exact coherent_erase_timer σ ih c _ _
    | completion shuffle now stamp c outcome =>
      rcases settle_cases shuffle now stamp c outcome σ.ui with hs | ⟨hp, hid, hp2, hr2⟩
      · simp only [Event.apply, hs]
        exact ih
      · obtain ⟨h1, h2, h3⟩ := ih
        have hno := (h1 _ hp).2
        refine ⟨?_, ?_, h3⟩
        · intro n hn
          simp only [Event.apply] at hn
          rw [hp2] at hn
          exact Option.noConfusion hn
        · intro d hd
          simp only [Event.apply] at hd ⊢
          rw [hr2]
          exact ⟨(h2 d hd).1, fun heq => absurd heq (hno d hd)⟩

/-- C25: in every reachable controller state a set pending marker implies a set
loading flag; equivalently, a clear loading flag implies that there is no
pending request, so the state is idle; hence the second guard of the submit
handlers (the pending marker) never rejects what the first guard (the loading
flag) lets through: `handleSend` admits exactly when the buffer is not blank
and the loading flag is clear, `handleSuggestedQuestion` exactly when the
loading flag is clear. -/
theorem pending_implies_loading (σ : Session) (h : Reachable σ) :
    (σ.ui.pendingRequestRef.isSome = true → σ.ui.isLoading = true) ∧
    (σ.ui.isLoading = false → σ.ui.pendingRequestRef = none) ∧
    (σ.ui.isLoading = false → Idle σ.ui) ∧
    (∀ now stamp : Nat,
      handleSend now stamp σ.ui =
        if !truthy (trim σ.ui.inputMessage) || σ.ui.isLoading then (σ.ui, none)
        else acceptSubmission σ.ui.inputMessage now stamp σ.ui) ∧
    (∀ (q : String) (now stamp : Nat),
      handleSuggestedQuestion q now stamp σ.ui =
        if σ.ui.isLoading then (σ.ui, none)
        else acceptSubmission q now stamp { σ.ui with inputMessage := q }) := by
  obtain ⟨h1, _, _⟩ := reachable_coherent σ h
  have key : σ.ui.isLoading = false → σ.ui.pendingRequestRef = none := by
    intro hl
    cases hp : σ.ui.pendingRequestRef with
    | none => rfl
    | some n =>
      have := (h1 n hp).1 
      rw [hl] at this
      exact Bool.noConfusion this
  refine ⟨?_, key, fun hl => ⟨hl, key hl⟩, ?_, ?_⟩
  · intro hp
    cases hpr : σ.ui.pendingRequestRef with
    | none => rw [hpr] at hp; exact Bool.noConfusion hp
    | some n => exact (h1 n hpr).1
  · intro now stamp
    cases hl : σ.ui.isLoading with
    | true => simp [handleSend, hl]
    | false => simp [handleSend, hl, key hl]
  · intro q now stamp
    cases hl : σ.ui.isLoading with
    | true => simp [handleSuggestedQuestion, hl]
    | false => simp [handleSuggestedQuestion, hl, key hl]

/-- C25 at a concrete input: the session that awaits the second answer. -/
theorem pending_implies_loading_witness :
    Reachable awaitingSecondAnswer ∧ awaitingSecondAnswer.ui.pendingRequestRef = some 2 ∧
    awaitingSecondAnswer.ui.isLoading = true :=
  ⟨awaitingSecondAnswer_reachable, by decide,
   (pending_implies_loading awaitingSecondAnswer awaitingSecondAnswer_reachable).1 (by decide)⟩

/-! ## The ends of the store -/

theorem runEvents_append (es : List Event) (e : Event) (σ : Session) :
    runEvents (es ++ [e]) σ = e.apply (runEvents es σ) := by
  induction es generalizing σ with
  | nil => rfl
  | cons x xs ih => exact ih (x.apply σ)

theorem lastScheduled_append (es : List Event) (e : Event) (σ : Session) :
    lastScheduled (es ++ [e]) σ =
      match scheduledBy e (runEvents es σ) with
      | some c => some c
      | none => lastScheduled es σ := by
  induction es generalizing σ with
  | nil =>
    simp only [List.nil_append, lastScheduled, runEvents]
    cases scheduledBy e σ <;> rfl
  | cons x xs ih =>
    have h := ih (x.apply σ)
    show (match lastScheduled (xs ++ [e]) (x.apply σ) with
      | some c => some c
      | none => scheduledBy x σ) =
      match scheduledBy e (runEvents xs (x.apply σ)) with
      | some c => some c
      | none => lastScheduled (x :: xs) σ
    rw [h]
    cases scheduledBy e (runEvents xs (x.apply σ)) with
    | some c => rfl
    | none => rfl

theorem reachable_is_run (σ : Session) (h : Reachable σ) :
    ∃ (now stamp : Nat) (es : List Event), σ = runEvents es (boot now stamp) := by
  induction h with
  | boot now stamp _ => exact ⟨now, stamp, [], rfl⟩
  | step e _ _ ih =>
    obtain ⟨now, stamp, es, rfl⟩ := ih
    exact ⟨now, stamp, es ++ [e], (runEvents_append es e _).symm⟩

theorem settle_loading (shuffle : List String → List String) (now stamp : Nat)
    (c : RequestClosure) (outcome : Outcome) (s : ChatState)
    (h : (settle shuffle now stamp c outcome s).1.isLoading = true) :
    s.isLoading = true ∧ (settle shuffle now stamp c outcome s).1.messages = s.messages := by
  cases hcur : notCurrent c s with
  | true =>
    rw [settle_of_notCurrent shuffle now stamp c outcome s hcur] at h ⊢
    exact ⟨h, rfl⟩
  | false =>
    cases outcome with
    | fulfilled answer =>
      cases answer with
      | none =>
        rw [settle_missing_answer_of_current shuffle now stamp c s hcur] at h ⊢
        exact ⟨h, rfl⟩
      | some a =>
        rw [settle_fulfilled_of_current shuffle now stamp c a s hcur] at h
        exact Bool.noConfusion h
    | rejected =>
      have hs : settle shuffle now stamp c Outcome.rejected s = catchHandler now stamp c s := rfl
      rw [hs, catchHandler_of_current now stamp c s hcur] at h
      exact Bool.noConfusion h

theorem head_append_of_head {α : Type} (l added : List α) (a : α)
    (h : l.head? = some a) : (l ++ added).head? = some a := by
  cases l with
  | nil => simp at h
  | cons x xs => simpa using h

/-- Along every run from a fresh screen the store starts with the welcome
message, and while the loading flag is set it ends with the user message of
the request allocated last. -/
theorem run_invariant (now stamp : Nat) (es : List Event) :
    (runEvents es (boot now stamp)).ui.messages.head? = some (welcomeMessage now stamp) ∧
    ((runEvents es (boot now stamp)).ui.isLoading = true →
      ∃ c m, lastScheduled es (boot now stamp) = some c ∧
        c.currentRequestId = (runEvents es (boot now stamp)).ui.requestIdRef ∧
        (runEvents es (boot now stamp)).ui.messages.getLast? = some m ∧
        m.sender = Sender.user ∧ m.text = c.currentInput) := by
  induction es using List.reverseRecOn with
  | nil =>
    refine ⟨rfl, ?_⟩
    intro hl
    exact Bool.noConfusion hl
  | append_singleton es e ih =>
    obtain ⟨ihhead, ihlast⟩ := ih
    rw [runEvents_append, lastScheduled_append]
    generalize runEvents es (boot now stamp) = σ at ihhead ihlast ⊢
    constructor
    · obtain ⟨added, hmsgs, _⟩ := apply_messages e σ
      rw [hmsgs]
      exact head_append_of_head _ _ _ ihhead
    · cases e with
      | change text =>
        intro hl
        exact ihlast hl
      | send n1 t1 =>
        rcases handleSend_cases n1 t1 σ.ui with hs | ⟨_, _, hs⟩
        · simp only [Event.apply, scheduledBy, hs]
          exact ihlast
        · simp only [Event.apply, scheduledBy, hs]
          intro _
          exact ⟨_, userMessage σ.ui.inputMessage n1 t1, rfl, rfl,
            by simp [acceptSubmission], rfl, rfl⟩
      | click q n1 t1 =>
        rcases handleSuggestedQuestion_cases q n1 t1 σ.ui with hs | hs | ⟨_, _, hs⟩
        · simp only [Event.apply, scheduledBy, hs]
          exact ihlast
        · simp only [Event.apply, scheduledBy, hs]
          exact ihlast
        · simp only [Event.apply, scheduledBy, hs]
          intro _
          exact ⟨_, userMessage q n1 t1, rfl, rfl, by simp [acceptSubmission], rfl, rfl⟩
      | timer c =>
        have hl : (deferredIssue c σ.ui).1.isLoading = σ.ui.isLoading := by
          unfold deferredIssue; split <;> rfl
        simp only [Event.apply, scheduledBy, hl, deferredIssue_messages,
          deferredIssue_requestId]
        exact ihlast
      | completion shuffle n1 t1 c outcome =>
        simp only [Event.apply, scheduledBy]
        intro hl
        obtain ⟨hl0, hm⟩ := settle_loading shuffle n1 t1 c outcome σ.ui hl
        rw [hm, settle_requestId]
        exact ihlast hl0

/-- C26: in every reachable controller state the first message of the store is
the welcome message, and whenever the loading flag is set the last message of
the store is a user message whose text is the question of the latest allocated
request; both hold at the end of every run of events from a fresh screen. -/
theorem welcome_first_question_last (σ : Session) (h : Reachable σ) :
    (∃ now stamp, σ.ui.messages.head? = some (welcomeMessage now stamp)) ∧
    (σ.ui.isLoading = true →
      ∃ m, σ.ui.messages.getLast? = some m ∧ m.sender = Sender.user ∧
        ∃ (now stamp : Nat) (es : List Event) (c : RequestClosure),
          σ = runEvents es (boot now stamp) ∧ lastScheduled es (boot now stamp) = some c ∧
          c.currentRequestId = σ.ui.requestIdRef ∧ m.text = c.currentInput) ∧
    (∀ (now stamp : Nat) (es : List Event),
      (runEvents es (boot now stamp)).ui.messages.head? = some (welcomeMessage now stamp) ∧
      ((runEvents es (boot now stamp)).ui.isLoading = true →
        ∃ c m, lastScheduled es (boot now stamp) = some c ∧
          c.currentRequestId = (runEvents es (boot now stamp)).ui.requestIdRef ∧
          (runEvents es (boot now stamp)).ui.messages.getLast? = some m ∧
          m.sender = Sender.user ∧ m.text = c.currentInput)) := by
  obtain ⟨now, stamp, es, rfl⟩ := reachable_is_run σ h
  obtain ⟨hhead, hlast⟩ := run_invariant now stamp es
  refine ⟨⟨now, stamp, hhead⟩, ?_, run_invariant⟩
  intro hl
  obtain ⟨c, m, hc, hid, hm, hs, ht⟩ := hlast hl
  exact ⟨m, hm, hs, now, stamp, es, c, rfl, hc, hid, ht⟩

/-- C26 at a concrete input: the session that awaits the answer to "b". -/
theorem welcome_first_question_last_witness :
    Reachable awaitingSecondAnswer ∧ awaitingSecondAnswer.ui.isLoading = true ∧
    awaitingSecondAnswer.ui.messages.head? = some (welcomeMessage 0 0) ∧
    awaitingSecondAnswer.ui.messages.getLast? = some (userMessage "b" 1100 1100) ∧
    (∃ now stamp, awaitingSecondAnswer.ui.messages.head? = some (welcomeMessage now stamp)) :=
  ⟨awaitingSecondAnswer_reachable, by decide, by decide, by decide,
   (welcome_first_question_last awaitingSecondAnswer awaitingSecondAnswer_reachable).1⟩

/-! ## Offered suggestions -/

theorem poolOf_subset_catalogue (b o t c : Bool) (x : String) (hx : x ∈ poolOf b o t c) :
    x ∈ catalogue := by
  simp only [catalogue, List.mem_append]
  rcases mem_poolOf b o t c x hx with h | h | h | h | h
  · exact Or.inl (Or.inl (Or.inl (Or.inl (Or.inr h.2))))
  · exact Or.inl (Or.inl (Or.inl (Or.inr h.2)))
  · exact Or.inl (Or.inl (Or.inr h.2))
  · exact Or.inl (Or.inr h.2)
  · exact Or.inr h.2.2.2.2

theorem catalogue_not_blank : ∀ q ∈ catalogue, q.data.all isWhiteSpace = false := by
  decide

/-- In every reachable store the suggestions of every message come from the
catalogue. -/
theorem reachable_suggestions_in_catalogue (σ : Session) (h : Reachable σ) :
    ∀ m ∈ σ.ui.messages, ∀ l, m.suggestedQuestions = some l → ∀ q ∈ l, q ∈ catalogue := by
  induction h with
  | boot now stamp _ =>
    intro m hm l hl q hq
    have : m = welcomeMessage now stamp := by simpa [boot, mount] using hm
    subst this
    simp only [welcomeMessage, Option.some.injEq] at hl
    subst hl
    simp only [catalogue, List.mem_append]
    exact Or.inl (Or.inl (Or.inl (Or.inl (Or.inl hq))))
  | step e _ he ih =>
    obtain ⟨added, hmsgs, hshape⟩ := apply_added_shape e _
    intro m hm l hl q hq
    rw [hmsgs, List.mem_append] at hm
    rcases hm with hm | hm
    · exact ih m hm l hl q hq
    · rcases hshape m hm with ⟨t, n, st, rfl⟩ | ⟨n, st, rfl⟩ | ⟨sh, a, qq, n, st, rfl, hperm⟩
      · simp [userMessage] at hl
      · simp [errorMessage] at hl
      · simp only [botMessage, Option.some.injEq] at hl
        subst hl
        have hmem := mem_generate sh (hperm he) a qq q hq
        rw [suggestions_eq_poolOf] at hmem
        exact poolOf_subset_catalogue _ _ _ _ q hmem

/-- C28: in every reachable store state each entry of each message's
suggestedQuestions is one of the 18 distinct strings of the catalogue (3
welcome suggestions, 12 topic candidates, 3 generic candidates), each of which
contains a character that is not white space; so every offered suggestion is
such a string, and a click on it in an idle state is admitted: it appends the
user message and schedules a request. -/
theorem offered_suggestions_from_catalogue (σ : Session) (h : Reachable σ) :
    (∀ m ∈ σ.ui.messages, ∀ l, m.suggestedQuestions = some l → ∀ q ∈ l, q ∈ catalogue) ∧
    catalogue.length = 18 ∧ catalogue.Nodup ∧
    welcomeSuggestions.length = 3 ∧
    (brahmiQuestions ++ ocrQuestions ++ tamilQuestions ++ scriptQuestions).length = 12 ∧
    genericQuestions.length = 3 ∧
    (∀ q ∈ catalogue, q.data.all isWhiteSpace = false) ∧
    (∀ q, offered σ.ui q →
      q ∈ catalogue ∧ q.data.all isWhiteSpace = false ∧
      (Idle σ.ui → ∀ now stamp : Nat,
        (handleSuggestedQuestion q now stamp σ.ui).2.isSome = true ∧
        (handleSuggestedQuestion q now stamp σ.ui).1.messages =
          σ.ui.messages ++ [userMessage q now stamp] ∧
        (handleSuggestedQuestion q now stamp σ.ui).1.isLoading = true)) := by
  have hcat := reachable_suggestions_in_catalogue σ h
  refine ⟨hcat, by decide, by decide, by decide, by decide, by decide, catalogue_not_blank, ?_⟩
  intro q hoff
  obtain ⟨m, hm, l, hl, hq⟩ := hoff
  have hqc := hcat m hm l hl q hq
  refine ⟨hqc, catalogue_not_blank q hqc, ?_⟩
  intro hidle now stamp
  obtain ⟨hl0, hp0⟩ := hidle
  simp [handleSuggestedQuestion, acceptSubmission, hl0, hp0]

/-- C28 at a concrete input: the suggestions on the fresh screen. -/
theorem offered_suggestions_from_catalogue_witness :
    Reachable (boot 0 0) ∧
    (∀ m ∈ (boot 0 0).ui.messages, ∀ l, m.suggestedQuestions = some l →
      ∀ q ∈ l, q ∈ catalogue) ∧
    (boot 0 0).ui.messages.map (fun m => m.suggestedQuestions) =
      [some ["What is Brahmi script?", "How does Tamil OCR work?",
             "What are the different types of scripts?"]] :=
  ⟨Reachable.boot 0 0 (Nat.le_refl 0),
   (offered_suggestions_from_catalogue (boot 0 0) (Reachable.boot 0 0 (Nat.le_refl 0))).1,
   by decide⟩

/-! ## The request wrapper -/

theorem chatWithBot_not_ok (toStr : Json → String) (body : Json) :
    ∃ f, chatWithBot toStr (FetchResult.response false (some body)) = Except.error f := by
  cases body with
  | null => exact ⟨_, rfl⟩
  | bool b => exact ⟨_, rfl⟩
  | num n => exact ⟨_, rfl⟩
  | str t => exact ⟨_, rfl⟩
  | arr items => exact ⟨_, rfl⟩
  | obj fields =>
    simp only [chatWithBot, Json.field]
    cases fields.lookup "detail" with
    | none => exact ⟨_, rfl⟩
    | some d =>
      cases hd : d.truthy with
      | true => exact ⟨ChatFailure.error (errorMessageOf toStr d), by simp [hd]⟩
      | false => exact ⟨ChatFailure.error defaultChatError, by simp [hd]⟩

theorem chatWithBot_detail (toStr : Json → String) (fields : List (String × Json)) :
    chatWithBot toStr (FetchResult.response false (some (Json.obj fields))) =
      match fields.lookup "detail" with
      | some detail =>
        if detail.truthy then Except.error (ChatFailure.error (errorMessageOf toStr detail))
        else Except.error (ChatFailure.error defaultChatError)
      | none => Except.error (ChatFailure.error defaultChatError) := by
  simp only [chatWithBot, Json.field]

/-- C30, as stated, fails: `chatWithBot` also fails for an ok response, namely
when its body is not JSON text (`response.json()` rejects), and it fails when
`fetch` itself rejects and there is no response at all. -/
theorem chatWithBot_fails_on_ok_response :
    chatWithBot (fun _ => "") (FetchResult.response true none) =
      Except.error ChatFailure.syntaxError ∧
    (¬ ∃ j, chatWithBot (fun _ => "") (FetchResult.response true none) = Except.ok j) ∧
    chatWithBot (fun _ => "") FetchResult.networkFailure = Except.error ChatFailure.network := by
  refine ⟨rfl, ?_, rfl⟩
  rintro ⟨j, hj⟩
  exact Except.noConfusion hj

/-- C30, amended: for an HTTP response whose body is JSON, `chatWithBot` fails
if and only if the response is not ok; for an ok response it returns the
parsed body unchanged; for a non-ok response whose body is an object it raises
an error whose message is the `detail` field when that is a non-empty string
(the string conversion of `detail` when it is another truthy value), and the
default "Failed to get response from chatbot" when `detail` is absent or falsy
(the empty string, null, false, 0). For an ok response whose body is not JSON
and for a request without response it fails as well. -/
theorem chatWithBot_result (toStr : Json → String) :
    (∀ (ok : Bool) (body : Json),
      (∃ j, chatWithBot toStr (FetchResult.response ok (some body)) = Except.ok j) ↔ ok = true) ∧
    (∀ body : Json, chatWithBot toStr (FetchResult.response true (some body)) = Except.ok body) ∧
    (∀ (fields : List (String × Json)) (d : String),
      fields.lookup "detail" = some (Json.str d) → d ≠ "" →
      chatWithBot toStr (FetchResult.response false (some (Json.obj fields))) =
        Except.error (ChatFailure.error d)) ∧
    (∀ (fields : List (String × Json)) (d : Json),
      fields.lookup "detail" = some d → d.truthy = true →
      chatWithBot toStr (FetchResult.response false (some (Json.obj fields))) =
        Except.error (ChatFailure.error (errorMessageOf toStr d))) ∧
    (∀ fields : List (String × Json), fields.lookup "detail" = none →
      chatWithBot toStr (FetchResult.response false (some (Json.obj fields))) =
        Except.error (ChatFailure.error "Failed to get response from chatbot")) ∧
    (∀ (fields : List (String × Json)) (d : Json),
      fields.lookup "detail" = some d → d.truthy = false →
      chatWithBot toStr (FetchResult.response false (some (Json.obj fields))) =
        Except.error (ChatFailure.error "Failed to get response from chatbot")) ∧
    (Json.str "").truthy = false ∧ Json.null.truthy = false ∧
    (Json.bool false).truthy = false ∧ (Json.num 0).truthy = false ∧
    (∀ ok : Bool, ∃ f, chatWithBot toStr (FetchResult.response ok none) = Except.error f) ∧
    chatWithBot toStr FetchResult.networkFailure = Except.error ChatFailure.network ∧
    (∀ r, outcomeOf (chatWithBot toStr r) = Outcome.rejected ↔
      ∃ f, chatWithBot toStr r = Except.error f) := by
  refine ⟨?_, fun _ => rfl, ?_, ?_, ?_, ?_, rfl, rfl, rfl, rfl, ?_, rfl, ?_⟩
  · intro ok body
    cases ok with
    | true => exact ⟨fun _ => rfl, fun _ => ⟨body, rfl⟩⟩
    | false =>
      constructor
      · rintro ⟨j, hj⟩
        obtain ⟨f, hf⟩ := chatWithBot_not_ok toStr body
        rw [hf] at hj
        exact Except.noConfusion hj
      · intro h
        exact Bool.noConfusion h
  · intro fields d hd hne
    have ht : (Json.str d).truthy = true := by simp [Json.truthy, hne]
    rw [chatWithBot_detail, hd]
    simp [ht, errorMessageOf]
  · intro fields d hd ht
    rw [chatWithBot_detail, hd]
    simp [ht]
  · intro fields hd
    rw [chatWithBot_detail, hd]
    rfl
  · intro fields d hd ht
    rw [chatWithBot_detail, hd]
    simp [ht, defaultChatError]
  · intro ok
    cases ok with
    | true => exact ⟨_, rfl⟩
    | false => exact ⟨_, rfl⟩
  · intro r
    cases hr : chatWithBot toStr r with
    | error f => exact ⟨fun _ => ⟨f, rfl⟩, fun _ => rfl⟩
    | ok body =>
      constructor
      · intro h
        simp only [outcomeOf] at h
        split at h <;> exact Outcome.noConfusion h
      · rintro ⟨f, hf⟩
        exact Except.noConfusion hf

/-! ## Blank submissions, and clicks against typed submissions -/

theorem offered_not_blank (σ : Session) (h : Reachable σ) (q : String)
    (hoff : offered σ.ui q) : q.data.all isWhiteSpace = false := by
  obtain ⟨m, hm, l, hl, hq⟩ := hoff
  exact catalogue_not_blank q (reachable_suggestions_in_catalogue σ h m hm l hl q hq)

/-- C3: for every controller state whose input buffer is empty or holds white
space only, a typed submission returns the state it was given (messages,
counter, loading flag, pending marker and buffer unchanged) and schedules no
request; the text of a suggestion button is never blank; so in every reachable
session every submission event (form submission or suggestion click) whose
text is blank leaves the controller state, the scheduled callbacks and the
sent requests as they were. -/
theorem blank_submission_rejected (now stamp : Nat) (s : ChatState)
    (h : s.inputMessage.data.all isWhiteSpace = true) :
    handleSend now stamp s = (s, none) ∧
    (∀ s2 : ChatState, handleSendAt s now stamp s2 = (s2, none)) ∧
    (∀ (σ : Session) (q : String), Reachable σ → offered σ.ui q →
      q.data.all isWhiteSpace = false) ∧
    (∀ (σ : Session) (e : Event) (t : String), Reachable σ → e.enabled σ →
      submittedText e σ = some t → t.data.all isWhiteSpace = true →
      (e.apply σ).ui = σ.ui ∧ scheduledBy e σ = none ∧ (e.apply σ).timers = σ.timers ∧
      (e.apply σ).inflight = σ.inflight ∧ (e.apply σ).sent = σ.sent) := by
  refine ⟨handleSend_of_blank now stamp s h, ?_, ?_, ?_⟩
  · intro s2
    simp [handleSendAt, truthy_trim_of_blank s.inputMessage h]
  · intro σ q hσ hoff
    exact offered_not_blank σ hσ q hoff
  · intro σ e t hσ he ht hblank
    cases e with
    | change text => simp [submittedText] at ht
    | send n1 t1 =>
      simp only [submittedText, Option.some.injEq] at ht
      subst ht
      have hs := handleSend_of_blank n1 t1 σ.ui hblank
      simp [Event.apply, scheduledBy, hs]
    | click q n1 t1 =>
      simp only [submittedText, Option.some.injEq] at ht
      subst ht
      have hnb := offered_not_blank σ hσ q he.1
      rw [hblank] at hnb
      exact Bool.noConfusion hnb
    | timer c => simp [submittedText] at ht
    | completion shuffle n1 t1 c outcome => simp [submittedText] at ht

/-- C3 at a concrete input: a buffer of a space, a tab and a space on the idle
welcome state, by the handler and as an event of the fresh session. -/
theorem blank_submission_rejected_witness :
    (" \t " : String).data.all isWhiteSpace = true ∧
    handleSend 5 5 { mount 0 0 initialState with inputMessage := " \t " } =
      ({ mount 0 0 initialState with inputMessage := " \t " }, none) ∧
    ((Event.send 5 5).apply ((Event.change " \t ").apply (boot 0 0))).ui =
      ((Event.change " \t ").apply (boot 0 0)).ui :=
  ⟨by decide,
   (blank_submission_rejected 5 5 { mount 0 0 initialState with inputMessage := " \t " }
     (by decide)).1,
   by decide⟩

/-- C4: in every reachable session and for every suggestion `q` the page
offers, a click on `q` and a typed submission with the input buffer holding
`q` give the same messages, loading flag, request-id counter and pending
marker and schedule the same request (same message and history); run on the
same state they give the same state, input buffer included; and on an idle
page the click is the same as typing `q` and submitting the form, as handlers
and as events of the session. The handlers agree in the same way on every
state for every text with a character that is not white space. -/
theorem click_follows_typed_path (σ : Session) (h : Reachable σ) (q : String)
    (hoff : offered σ.ui q) (now stamp : Nat) :
    handleSuggestedQuestion q now stamp { σ.ui with inputMessage := q } =
      handleSend now stamp { σ.ui with inputMessage := q } ∧
    (σ.ui.isLoading = false →
      handleSuggestedQuestion q now stamp σ.ui =
        handleSend now stamp { σ.ui with inputMessage := q }) ∧
    (σ.ui.isLoading = false →
      (Event.click q now stamp).apply σ =
        (Event.send now stamp).apply ((Event.change q).apply σ)) ∧
    (handleSuggestedQuestion q now stamp σ.ui).1.messages =
      (handleSend now stamp { σ.ui with inputMessage := q }).1.messages ∧
    (handleSuggestedQuestion q now stamp σ.ui).1.isLoading =
      (handleSend now stamp { σ.ui with inputMessage := q }).1.isLoading ∧
    (handleSuggestedQuestion q now stamp σ.ui).1.requestIdRef =
      (handleSend now stamp { σ.ui with inputMessage := q }).1.requestIdRef ∧
    (handleSuggestedQuestion q now stamp σ.ui).1.pendingRequestRef =
      (handleSend now stamp { σ.ui with inputMessage := q }).1.pendingRequestRef ∧
    (handleSuggestedQuestion q now stamp σ.ui).2 =
      (handleSend now stamp { σ.ui with inputMessage := q }).2 ∧
    (∀ s2 : ChatState,
      ((handleSuggestedQuestion q now stamp σ.ui).2.map fun c => (deferredIssue c s2).2) =
      ((handleSend now stamp { σ.ui with inputMessage := q }).2.map
        fun c => (deferredIssue c s2).2)) ∧
    (∀ (s : ChatState) (t : String), t.data.all isWhiteSpace = false →
      handleSuggestedQuestion t now stamp { s with inputMessage := t } =
        handleSend now stamp { s with inputMessage := t } ∧
      (s.isLoading = false →
        handleSuggestedQuestion t now stamp s =
          handleSend now stamp { s with inputMessage := t })) := by
  have hq := offered_not_blank σ h q hoff
  obtain ⟨h1, h2, h3, h4, h5, h6, h7, h8⟩ := click_eq_typed_of_not_blank q now stamp σ.ui hq
  refine ⟨h8, h7, ?_, h1, h2, h3, h4, h5, h6, ?_⟩
  · intro hl
    have := h7 hl
    simp only [Event.apply]
    rw [this]
  · intro s t ht
    obtain ⟨_, _, _, _, _, _, g7, g8⟩ := click_eq_typed_of_not_blank t now stamp s ht
    exact ⟨g8, g7⟩

/-- C4 at a concrete input: the suggestion "What is Brahmi script?" offered on
the fresh screen. -/
theorem click_follows_typed_path_witness :
    Reachable (boot 0 0) ∧ offered (boot 0 0).ui "What is Brahmi script?" ∧
    handleSuggestedQuestion "What is Brahmi script?" 5 5 (boot 0 0).ui =
      handleSend 5 5 { (boot 0 0).ui with inputMessage := "What is Brahmi script?" } ∧
    (handleSuggestedQuestion "What is Brahmi script?" 5 5 (boot 0 0).ui).1.messages =
      [welcomeMessage 0 0, userMessage "What is Brahmi script?" 5 5] :=
  ⟨Reachable.boot 0 0 (Nat.le_refl 0),
   ⟨welcomeMessage 0 0, by decide, welcomeSuggestions, rfl, by decide⟩,
   (click_follows_typed_path (boot 0 0) (Reachable.boot 0 0 (Nat.le_refl 0))
     "What is Brahmi script?"
     ⟨welcomeMessage 0 0, by decide, welcomeSuggestions, rfl, by decide⟩ 5 5).2.1 rfl,
   by decide⟩

end Chatbot
